import Mathlib

set_option maxHeartbeats 1000000

/-
  Verification development for the ForesightJS prediction-and-dispatch engine
  (package js.foresight, file src/Manager/ForesightManager.ts).

  The TypeScript class `ForesightManager` is embedded shallowly: the manager's
  mutable fields become a `ManagerState` record, each private handler becomes a
  pure state-transformer, and the two externally observable effect streams
  (callback invocations and published events) are recorded in explicit trace
  fields (`firedLog`, `emitted`).  External collaborators that the manager only
  calls into (DOM geometry, the tabbable-set provider, the missing helper
  modules for geometric hit tests, scroll direction inference and focused-index
  resolution) are passed in as an `Externals` record of oracle functions, so
  every theorem quantifies over their behaviour.  Helpers whose source is not
  part of the repository snapshot but whose behaviour the spec pins down are
  defined here with a `Modelled from the spec:` comment.

  JavaScript numbers that the engine stores and compares are modelled as `Int`
  (all engine arithmetic on them is comparison, clamping, addition and
  multiplication; no fractional behaviour is load-bearing for the claims).
-/

namespace Foresight

/-- A 2D coordinate, source type `Point` (`{x, y}`). -/
structure Point where
  x : Int
  y : Int
  deriving DecidableEq

/-- Axis-aligned box in viewport coordinates, source type `Rect`
(`{top, left, right, bottom}`). -/
structure Rect where
  top : Int
  left : Int
  right : Int
  bottom : Int
  deriving DecidableEq

/-- The zero rectangle used by `register` as the initial `expandedRect`
(source line 289: `expandedRect: { top: 0, left: 0, right: 0, bottom: 0 }`). -/
def zeroRect : Rect := ⟨0, 0, 0, 0⟩

/-- The four real scroll directions (source `ScrollDirection` minus the
sentinel value; the sentinel string value of the source is modelled as
`Option.none` at use sites, matching the source's early return on it). -/
inductive ScrollAxis where
  | down
  | left
  | right
  | up
  deriving DecidableEq

/-- Mouse hit subtypes (source `HitType` with `kind: "mouse"`). -/
inductive MouseSub where
  | hover
  | trajectory
  deriving DecidableEq

/-- Tab hit subtypes (source `HitType` with `kind: "tab"`). -/
inductive TabSub where
  | forwards
  | reverse
  deriving DecidableEq

/-- Source discriminated union `HitType`: the exact interaction kind/subtype
recorded when a callback fires. -/
inductive HitType where
  | mouse (sub : MouseSub)
  | tab (sub : TabSub)
  | scroll (axis : ScrollAxis)
  deriving DecidableEq

/-- Source type `CallbackHits`: nested hit counters flattened into one record
(fields `mouse.hover`, `mouse.trajectory`, `tab.forwards`, `tab.reverse`,
`scroll.down/left/right/up`, `total`). -/
structure CallbackHits where
  mouseHover : Nat
  mouseTrajectory : Nat
  tabForwards : Nat
  tabReverse : Nat
  scrollDown : Nat
  scrollLeft : Nat
  scrollRight : Nat
  scrollUp : Nat
  total : Nat
  deriving DecidableEq

/-- The all-zero `CallbackHits` record used at construction and registration. -/
def zeroHits : CallbackHits := ⟨0, 0, 0, 0, 0, 0, 0, 0, 0⟩

/-- Source `updateHitCounters` applied to one `CallbackHits` record: bump the
counter of the exact kind/subtype, and the running total. -/
def bumpHits (h : CallbackHits) : HitType → CallbackHits
  | .mouse .hover => { h with mouseHover := h.mouseHover + 1, total := h.total + 1 }
  | .mouse .trajectory => { h with mouseTrajectory := h.mouseTrajectory + 1, total := h.total + 1 }
  | .tab .forwards => { h with tabForwards := h.tabForwards + 1, total := h.total + 1 }
  | .tab .reverse => { h with tabReverse := h.tabReverse + 1, total := h.total + 1 }
  | .scroll .down => { h with scrollDown := h.scrollDown + 1, total := h.total + 1 }
  | .scroll .left => { h with scrollLeft := h.scrollLeft + 1, total := h.total + 1 }
  | .scroll .right => { h with scrollRight := h.scrollRight + 1, total := h.total + 1 }
  | .scroll .up => { h with scrollUp := h.scrollUp + 1, total := h.total + 1 }

/-- Source `elementBounds` field of `ForesightElementData`:
`{originalRect, expandedRect, hitSlop}`; `originalRect` starts `undefined`. -/
structure ElementBounds where
  originalRect : Option Rect
  expandedRect : Rect
  hitSlop : Rect
  deriving DecidableEq

/-- Source `ForesightElementData`.  Element handles and callbacks are opaque to
the engine, so both are modelled as numeric identifiers (`element` is the
registry key; `callback` an opaque id whose invocations are recorded in the
manager's `firedLog` trace).  The display name is likewise an opaque id.  The
`trajectoryHitData` timer bookkeeping of the source is not modelled: it holds a
wall-clock timestamp and a platform timeout handle, and no claim refers to it. -/
structure ElementData where
  element : Nat
  callback : Nat
  callbackHits : CallbackHits
  elementBounds : ElementBounds
  isHovering : Bool
  name : Option Nat
  isIntersectingWithViewport : Bool
  deriving DecidableEq

/-- The registry: source field `elements: Map<ForesightElement,
ForesightElementData>`, modelled as an insertion-ordered association list with
JavaScript `Map` semantics (`get`/`set`/`delete`/`has`, set replaces in place). -/
abbrev ElementMap := List (Nat × ElementData)

/-- JavaScript `Map.prototype.get`. -/
def mapGet : ElementMap → Nat → Option ElementData
  | [], _ => none
  | p :: rest, k => if p.1 = k then some p.2 else mapGet rest k

/-- JavaScript `Map.prototype.set`: replace in place if the key is present,
else append at the end (insertion order preserved). -/
def mapSet : ElementMap → Nat → ElementData → ElementMap
  | [], k, v => [(k, v)]
  | p :: rest, k, v => if p.1 = k then (k, v) :: rest else p :: mapSet rest k v

/-- JavaScript `Map.prototype.delete` (removes the entry with the key). -/
def mapDelete : ElementMap → Nat → ElementMap
  | [], _ => []
  | p :: rest, k => if p.1 = k then rest else p :: mapDelete rest k

/-- JavaScript `Map.prototype.has`. -/
def mapHas (m : ElementMap) (k : Nat) : Bool := (mapGet m k).isSome

/-- JavaScript `Map.prototype.size`. -/
def mapSize (m : ElementMap) : Nat := List.length m

/-- The insertion-ordered key list of the registry (`Map` iteration order). -/
def mapKeys (m : ElementMap) : List Nat := List.map Prod.fst m

/-
  Settings layer.  The numeric clamp constants live in `Manager/constants.ts`,
  which is not part of the repository snapshot; their values are modelled from
  the repository's own configuration documentation
  (`docs/getting_started/config.md`: positionHistorySize 0/30,
  trajectoryPredictionTime 10/200, tabOffset 0/20) and, for the scroll margin
  that the documentation predates, from the spec's statement that it is a
  clamped non-negative numeric parameter.
-/

/-- Modelled from the spec: constant `MIN_POSITION_HISTORY_SIZE` of the missing
`Manager/constants.ts` (documented range 0/30). -/
def MIN_POSITION_HISTORY_SIZE : Int := 0

/-- Modelled from the spec: constant `MAX_POSITION_HISTORY_SIZE` (documented
range 0/30). -/
def MAX_POSITION_HISTORY_SIZE : Int := 30

/-- Modelled from the spec: constant `MIN_TRAJECTORY_PREDICTION_TIME`
(documented range 10/200). -/
def MIN_TRAJECTORY_PREDICTION_TIME : Int := 10

/-- Modelled from the spec: constant `MAX_TRAJECTORY_PREDICTION_TIME`
(documented range 10/200). -/
def MAX_TRAJECTORY_PREDICTION_TIME : Int := 200

/-- Modelled from the spec: constant `MIN_SCROLL_MARGIN`; the documentation
predates the scroll feature, the spec only states the parameter is clamped to
a documented range, so a representative non-negative range is used. -/
def MIN_SCROLL_MARGIN : Int := 0

/-- Modelled from the spec: constant `MAX_SCROLL_MARGIN` (see
`MIN_SCROLL_MARGIN`). -/
def MAX_SCROLL_MARGIN : Int := 500

/-- Modelled from the spec: constant `MIN_TAB_OFFSET` (documented range 0/20). -/
def MIN_TAB_OFFSET : Int := 0

/-- Modelled from the spec: constant `MAX_TAB_OFFSET` (documented range 0/20). -/
def MAX_TAB_OFFSET : Int := 20

/-- Source field `_globalSettings: ForesightManagerSettings`.  The
`onAnyCallbackFired` hook is an external function the engine only stores and
invokes; it is modelled as an opaque id. -/
structure ForesightManagerSettings where
  debug : Bool
  enableMousePrediction : Bool
  enableScrollPrediction : Bool
  enableTabPrediction : Bool
  positionHistorySize : Int
  trajectoryPredictionTime : Int
  scrollMargin : Int
  tabOffset : Int
  defaultHitSlop : Rect
  onAnyCallbackFired : Nat
  deriving DecidableEq

/-- Source type `NumericSettingKeys`: the four clamped numeric settings. -/
inductive NumericSettingKeys where
  | positionHistorySize
  | trajectoryPredictionTime
  | scrollMargin
  | tabOffset
  deriving DecidableEq

/-- Source type `ManagerBooleanSettingKeys` restricted to the keys
`alterGlobalSettings` actually updates. -/
inductive BooleanSettingKeys where
  | enableMousePrediction
  | enableScrollPrediction
  | enableTabPrediction
  deriving DecidableEq

/-- Read of `this._globalSettings[setting]` for a numeric key. -/
def getNumeric (s : ForesightManagerSettings) : NumericSettingKeys → Int
  | .positionHistorySize => s.positionHistorySize
  | .trajectoryPredictionTime => s.trajectoryPredictionTime
  | .scrollMargin => s.scrollMargin
  | .tabOffset => s.tabOffset

/-- Write of `this._globalSettings[setting] = v` for a numeric key. -/
def setNumeric (s : ForesightManagerSettings) : NumericSettingKeys → Int → ForesightManagerSettings
  | .positionHistorySize, v => { s with positionHistorySize := v }
  | .trajectoryPredictionTime, v => { s with trajectoryPredictionTime := v }
  | .scrollMargin, v => { s with scrollMargin := v }
  | .tabOffset, v => { s with tabOffset := v }

/-- Read of `this._globalSettings[setting]` for a boolean key. -/
def getBoolean (s : ForesightManagerSettings) : BooleanSettingKeys → Bool
  | .enableMousePrediction => s.enableMousePrediction
  | .enableScrollPrediction => s.enableScrollPrediction
  | .enableTabPrediction => s.enableTabPrediction

/-- Write of `this._globalSettings[setting] = v` for a boolean key. -/
def setBoolean (s : ForesightManagerSettings) : BooleanSettingKeys → Bool → ForesightManagerSettings
  | .enableMousePrediction, v => { s with enableMousePrediction := v }
  | .enableScrollPrediction, v => { s with enableScrollPrediction := v }
  | .enableTabPrediction, v => { s with enableTabPrediction := v }

/-- Modelled from the spec: helper `clampNumber` of the missing
`Manager/helpers/clampNumber.ts` — every numeric update is clamped to its
documented [min, max] before being stored (the source helper also takes the
setting name, used only for a console warning). -/
def clampNumber (value mn mx : Int) : Int :=
  if value < mn then mn else if value > mx then mx else value

/-- Modelled from the spec: helper `shouldUpdateSetting` of the missing
`Manager/helpers/shouldUpdateSetting.ts` — the equality gate: an update is
performed only when a value was supplied and it differs from the stored value
("equality-gated writes").  Note the clamp in `updateNumericSettings` happens
after this gate, so the gate necessarily compares the raw incoming value. -/
def shouldUpdateSetting {α : Type} [DecidableEq α] (newValue : Option α) (current : α) : Bool :=
  match newValue with
  | none => false
  | some v => v ≠ current

/-- Modelled from the spec: helper `normalizeHitSlop` of the missing
`Manager/helpers/rectAndHitSlop.ts` — hit slop is a Rect-shaped padding whose
sides are independently clamped to the documented non-negative range
(0/2000 per the configuration documentation).  The source also accepts a plain
number meaning a uniform rect; only the rect form is needed here. -/
def normalizeHitSlop (r : Rect) : Rect :=
  ⟨clampNumber r.top 0 2000, clampNumber r.left 0 2000,
   clampNumber r.right 0 2000, clampNumber r.bottom 0 2000⟩

/-- Modelled from the spec: helper `areRectsEqual` of the missing
`Manager/helpers/rectAndHitSlop.ts` — exact numeric equality of all four sides. -/
def areRectsEqual (a b : Rect) : Bool := a = b

/-- Modelled from the spec: helper `getExpandedRect` of the missing
`Manager/helpers/rectAndHitSlop.ts` — grows each side of the rect by the
corresponding hit-slop amount. -/
def getExpandedRect (r slop : Rect) : Rect :=
  ⟨r.top - slop.top, r.left - slop.left, r.right + slop.right, r.bottom + slop.bottom⟩

/-- The last `n` entries of a list (JavaScript `slice(length - n)`). -/
def keepLast {α : Type} (n : Nat) (l : List α) : List α := l.drop (l.length - n)

/-- Modelled from the spec: helper `predictNextMousePosition` of the missing
`Manager/helpers/predictNextMousePosition.ts`.  Per the spec it (a) maintains
the bounded position history — the current point is appended and the oldest
entries evicted so the length never exceeds the configured size — and (b)
linearly extrapolates `currentPoint + velocity * lookahead`, with velocity zero
when the history has at most one sample.  The numeric scale of the velocity
estimate is not recoverable from the snapshot and is not load-bearing for any
claim; the history maintenance is.  Returns (predicted point, new history). -/
def predictNextMousePosition (current : Point) (positions : List Point)
    (historySize predictionTime : Int) : Point × List Point :=
  let newPositions := keepLast historySize.toNat (positions ++ [current])
  let predicted :=
    match newPositions with
    | [] => current
    | [_] => current
    | p0 :: _ :: _ =>
      ⟨current.x + (current.x - p0.x) * predictionTime,
       current.y + (current.y - p0.y) * predictionTime⟩
  (predicted, newPositions)

/-- Source `updateNumericSettings` (lines 349-362): gate on
`shouldUpdateSetting`, then store the clamped value; returns whether a change
was made together with the new settings record. -/
def updateNumericSettings (s : ForesightManagerSettings) (newValue : Option Int)
    (setting : NumericSettingKeys) (mn mx : Int) : Bool × ForesightManagerSettings :=
  match newValue with
  | none => (false, s)
  | some v =>
    if ¬ shouldUpdateSetting (some v) (getNumeric s setting) then (false, s)
    else (true, setNumeric s setting (clampNumber v mn mx))

/-- Source `updateBooleanSetting` (lines 364-373). -/
def updateBooleanSetting (s : ForesightManagerSettings) (newValue : Option Bool)
    (setting : BooleanSettingKeys) : Bool × ForesightManagerSettings :=
  match newValue with
  | none => (false, s)
  | some v =>
    if ¬ shouldUpdateSetting (some v) (getBoolean s setting) then (false, s)
    else (true, setBoolean s setting v)

/-- Source type `TrajectoryPositions`. -/
structure TrajectoryPositions where
  positions : List Point
  currentPoint : Point
  predictedPoint : Point
  deriving DecidableEq

/-- The attachment state of the manager's global listeners and observers.
`mousemove`, `keydown` and `focusin` are the `document.addEventListener` calls
of `initializeGlobalListeners` (source lines 797-799); `controllerActive`
models `globalListenersController` being non-null.  Crucially, the source
attaches `keydown` and `focusin` with the controller's `{ signal }` but
attaches `mousemove` WITHOUT it (line 797, with the comment "Dont add signal
we still need to emit events even without elements"), so an `abort()` on the
controller detaches only the signal-bound pair — this is the standard DOM
semantics of signal-bound listeners. -/
structure ListenerState where
  mousemove : Bool
  keydown : Bool
  focusin : Bool
  controllerActive : Bool
  domObserver : Bool
  positionObserver : Bool
  deriving DecidableEq

/-- Tags (with the payload relevant to the claims) of the events the manager
publishes through `emit`; one constructor per `ForesightEventType`. -/
inductive Emitted where
  | elementRegistered (e : Nat)
  | elementUnregistered (e : Nat)
  | elementDataUpdated (e : Nat)
  | callbackFired (e : Nat) (hitType : HitType)
  | mouseTrajectoryUpdate
  | scrollTrajectoryUpdate
  | managerSettingsChanged
  deriving DecidableEq

/-- Source type `ElementUnregisteredReason`. -/
inductive UnregisterReason where
  | apiCall
  | disconnected
  | callbackHit
  deriving DecidableEq

/-- The mutable fields of the `ForesightManager` singleton, plus two explicit
traces of its outward effects: `emitted` records every `emit` call in order,
and `firedLog` records every `elementData.callback()` invocation (by element
key) in order.  `scrollDirComputeCount` / `scrollPointComputeCount` count the
calls to the external `getScrollDirection` / `predictNextScrollPosition`
helpers — they instrument the two compute sites in `handleScrollPrefetch` and
are touched nowhere else. -/
structure ManagerState where
  elements : ElementMap
  isSetup : Bool
  globalSettings : ForesightManagerSettings
  trajectoryPositions : TrajectoryPositions
  globalCallbackHits : CallbackHits
  tabbableElementsCache : List Nat
  lastFocusedIndex : Option Int
  predictedScrollPoint : Option Point
  scrollDirection : Option (Option ScrollAxis)
  lastKeyDown : Option Bool
  listeners : ListenerState
  emitted : List Emitted
  firedLog : List Nat
  scrollDirComputeCount : Nat
  scrollPointComputeCount : Nat
  deriving DecidableEq

/-- The external collaborators the manager calls into: the geometry helpers
and prediction helpers whose modules are outside the snapshot
(`lineSegmentIntersectsRect`, `isPointInRectangle`, `getScrollDirection`,
`predictNextScrollPosition`, `getFocusedElementIndex`), the tabbable-set
provider (`tabbable(document.documentElement)`), and the DOM geometry oracle
(`element.getBoundingClientRect`).  Every theorem quantifies over these. -/
structure Externals where
  isPointInRectangle : Point → Rect → Bool
  lineSegmentIntersectsRect : Point → Point → Rect → Bool
  getScrollDirection : Rect → Rect → Option ScrollAxis
  predictNextScrollPosition : Point → ScrollAxis → Int → Point
  getFocusedElementIndex : Bool → Option Int → List Nat → Nat → Int
  tabbableAll : List Nat
  dom : Nat → Rect

/-- Record one `emit` call (source lines 209-220; subscriber dispatch itself is
embedded separately as `emitDispatch`). -/
def emitState (s : ManagerState) (e : Emitted) : ManagerState :=
  { s with emitted := s.emitted ++ [e] }

/-- Source `removeGlobalListeners` (lines 818-828): clear `isSetup`, abort the
shared controller (which detaches the signal-bound `keydown` and `focusin`
listeners but NOT the `mousemove` listener, which was attached without the
signal), drop the controller, disconnect both observers. -/
def removeGlobalListeners (s : ManagerState) : ManagerState :=
  { s with
    isSetup := false
    listeners := { mousemove := s.listeners.mousemove, keydown := false, focusin := false,
                   controllerActive := false, domObserver := false, positionObserver := false } }

/-- Source `initializeGlobalListeners` (lines 786-816): no-op when already set
up; otherwise create the controller, attach `mousemove` (without the signal),
`keydown` and `focusin` (with the signal), start both observers, set `isSetup`.
The server-side-rendering guard (no `window`/`document`) is outside the model:
a browser environment is assumed. -/
def setupGlobalListeners (s : ManagerState) : ManagerState :=
  if s.isSetup then s
  else
    { s with
      listeners := { mousemove := true, keydown := true, focusin := true,
                     controllerActive := true, domObserver := true, positionObserver := true }
      isSetup := true }

/-- Source `unregister` (lines 320-347): no-op on an absent key; otherwise
publish `elementUnregistered`, delete the entry (the pending-timeout clearing
concerns the unmodelled timer field), and tear the global listeners down when
the registry became empty while set up. -/
def unregister (s : ManagerState) (element : Nat) (_reason : UnregisterReason) : ManagerState :=
  if ¬ mapHas s.elements element then s
  else
    let s1 := emitState s (.elementUnregistered element)
    let s2 := { s1 with elements := mapDelete s1.elements element }
    if mapSize s2.elements = 0 ∧ s2.isSetup then removeGlobalListeners s2 else s2

/-- Update of one registry record's hit counters: source `updateHitCounters`
(lines 621-638) per-element half (the record mutated there is, through the
shared-reference spreads of the source, the record stored under its key). -/
def bumpElementCounters : ElementMap → Nat → HitType → ElementMap
  | [], _, _ => []
  | p :: rest, k, ht =>
    if p.1 = k then (p.1, { p.2 with callbackHits := bumpHits p.2.callbackHits ht }) :: rest
    else p :: bumpElementCounters rest k ht

/-- Source `callCallback` (lines 640-655): on a defined record, bump the
per-element and global hit counters, invoke the callback (recorded in
`firedLog`), invoke the global `onAnyCallbackFired` hook (external), publish
`callbackFired`, then unregister the element with reason `callbackHit` —
unconditionally: this source version has no fire-once opt-out. -/
def callCallback (s : ManagerState) (elementData : Option ElementData) (hitType : HitType) :
    ManagerState :=
  match elementData with
  | none => s
  | some d =>
    let s1 := { s with
      elements := bumpElementCounters s.elements d.element hitType
      globalCallbackHits := bumpHits s.globalCallbackHits hitType }
    let s2 := { s1 with firedLog := s1.firedLog ++ [d.element] }
    let s3 := emitState s2 (.callbackFired d.element hitType)
    unregister s3 d.element .callbackHit

/-- Source `updatePointerState` (lines 476-486): set the current point; when
mouse prediction is enabled, produce the predicted point from
`predictNextMousePosition` (which also maintains the bounded history);
otherwise the predicted point is a copy of the current point. -/
def updatePointerState (s : ManagerState) (p : Point) : ManagerState :=
  if s.globalSettings.enableMousePrediction then
    let r := predictNextMousePosition p s.trajectoryPositions.positions
      s.globalSettings.positionHistorySize s.globalSettings.trajectoryPredictionTime
    { s with trajectoryPositions := ⟨r.2, p, r.1⟩ }
  else
    { s with trajectoryPositions :=
      { s.trajectoryPositions with currentPoint := p, predictedPoint := p } }

/-- Source `handleCallbackInteraction` (lines 499-517): with mouse prediction
off, a physical hover (point-in-rect on the expanded rect) fires; with it on,
a predicted trajectory segment intersecting the expanded rect fires. -/
def handleCallbackInteraction (ext : Externals) (s : ManagerState) (d : ElementData) :
    ManagerState :=
  let expandedRect := d.elementBounds.expandedRect
  if ¬ s.globalSettings.enableMousePrediction then
    if ext.isPointInRectangle s.trajectoryPositions.currentPoint expandedRect then
      callCallback s (some d) (.mouse .hover)
    else s
  else
    if ext.lineSegmentIntersectsRect s.trajectoryPositions.currentPoint
        s.trajectoryPositions.predictedPoint expandedRect then
      callCallback s (some d) (.mouse .trajectory)
    else s

/-- One element's visit inside `handleMouseMove`'s `elements.forEach`: fetch
the record live (JavaScript `Map.forEach` does not visit entries deleted
mid-iteration), skip it while not intersecting the viewport, otherwise run the
interaction check. -/
def mouseMoveVisit (ext : Externals) (s : ManagerState) (k : Nat) : ManagerState :=
  match mapGet s.elements k with
  | none => s
  | some d =>
    if ¬ d.isIntersectingWithViewport then s
    else handleCallbackInteraction ext s d

/-- Source `handleMouseMove` (lines 519-536): update the pointer state first
(so every element of the same event is tested against a consistent predicted
point), visit every registered element, then publish `mouseTrajectoryUpdate`. -/
def handleMouseMove (ext : Externals) (s : ManagerState) (p : Point) : ManagerState :=
  let s1 := updatePointerState s p
  let s2 := (mapKeys s1.elements).foldl (mouseMoveVisit ext) s1
  emitState s2 .mouseTrajectoryUpdate

/-- Source `handleKeyDown` (lines 565-569): remember a Tab keydown (the
modelled event already is the Tab case; the stored value is the shift state). -/
def handleKeyDown (s : ManagerState) (shift : Bool) : ManagerState :=
  { s with lastKeyDown := some shift }

/-- JavaScript indexing `cache[i]` with a possibly out-of-range or negative
index (yields `undefined`). -/
def listGetInt (l : List Nat) (i : Int) : Option Nat :=
  if i < 0 then none else l.get? i.toNat

/-- Source `handleFocusIn` (lines 571-619): on a focus change that follows a
Tab keydown, with tab prediction enabled, refresh the tabbable cache if empty,
resolve the focused index, and fire every registered element at the up-to-
(tabOffset+1) cache indices extending from that index in the traversal
direction (the collection loop checks registration against the registry as it
stood before any firing; each fire then re-fetches the record, so an already
removed element is a no-op). -/
def handleFocusIn (ext : Externals) (s : ManagerState) (target : Nat) : ManagerState :=
  match s.lastKeyDown with
  | none => s
  | some isReversed =>
    if ¬ s.globalSettings.enableTabPrediction then s
    else
      let cache := if s.tabbableElementsCache.isEmpty then ext.tabbableAll
                   else s.tabbableElementsCache
      let currentIndex := ext.getFocusedElementIndex isReversed s.lastFocusedIndex cache target
      let s1 := { s with
        tabbableElementsCache := cache
        lastFocusedIndex := some currentIndex
        lastKeyDown := none }
      let elementsToPredict := (List.range (s1.globalSettings.tabOffset + 1).toNat).filterMap
        (fun i =>
          match listGetInt cache (if isReversed then currentIndex - i else currentIndex + i) with
          | none => none
          | some el => if mapHas s1.elements el then some el else none)
      elementsToPredict.foldl
        (fun acc el => callCallback acc (mapGet acc.elements el)
          (.tab (if isReversed then .reverse else .forwards)))
        s1

/-- Source `updateElementBounds` (lines 685-702): store the new original rect
and the freshly expanded rect on the record, publish `elementDataUpdated`.  The
caller's local record value keeps its old bounds (the source builds a new
object), which `handlePositionChange` relies on. -/
def updateElementBounds (s : ManagerState) (newRect : Rect) (d : ElementData) : ManagerState :=
  let d2 := { d with elementBounds :=
    { d.elementBounds with
      originalRect := some newRect
      expandedRect := getExpandedRect newRect d.elementBounds.hitSlop } }
  let s1 := { s with elements := mapSet s.elements d.element d2 }
  emitState s1 (.elementDataUpdated d.element)

/-- Source `handleScrollPrefetch` (lines 704-757).  With scroll prediction
enabled: skip records that never had bounds; compute the scroll direction ONCE
per batch (`this.scrollDirection ?? getScrollDirection(...)` — the `??` reuses
the batch-cached value), bail out on the sentinel direction, compute the
predicted scroll point ONCE per batch the same way, fire on segment
intersection against the record's (pre-update) expanded rect, and publish
`scrollTrajectoryUpdate`.  With scroll prediction disabled: plain hover test.
The two compute sites increment the instrumentation counters. -/
def handleScrollPrefetch (ext : Externals) (s : ManagerState) (d : ElementData)
    (newRect : Rect) : ManagerState :=
  if s.globalSettings.enableScrollPrediction then
    match d.elementBounds.originalRect with
    | none => s
    | some oldRect =>
      let dirAndState : Option ScrollAxis × ManagerState :=
        match s.scrollDirection with
        | some dv => (dv, s)
        | none =>
          let dv := ext.getScrollDirection oldRect newRect
          (dv, { s with scrollDirection := some dv,
                        scrollDirComputeCount := s.scrollDirComputeCount + 1 })
      let s1 := dirAndState.2
      match dirAndState.1 with
      | none => s1
      | some axis =>
        let ptAndState : Point × ManagerState :=
          match s1.predictedScrollPoint with
          | some p => (p, s1)
          | none =>
            let p := ext.predictNextScrollPosition s1.trajectoryPositions.currentPoint axis
              s1.globalSettings.scrollMargin
            (p, { s1 with predictedScrollPoint := some p,
                          scrollPointComputeCount := s1.scrollPointComputeCount + 1 })
        let s2 := ptAndState.2
        let s3 :=
          if ext.lineSegmentIntersectsRect s2.trajectoryPositions.currentPoint ptAndState.1
              d.elementBounds.expandedRect then
            callCallback s2 (some d) (.scroll axis)
          else s2
        emitState s3 .scrollTrajectoryUpdate
  else
    if ext.isPointInRectangle s.trajectoryPositions.currentPoint
        d.elementBounds.expandedRect then
      callCallback s (some d) (.mouse .hover)
    else s

/-- One entry of a `PositionObserver` batch:
`{target, boundingClientRect, isIntersecting}`. -/
structure PosEntry where
  target : Nat
  boundingClientRect : Rect
  isIntersecting : Bool
  deriving DecidableEq

/-- One entry's processing inside `handlePositionChange`'s loop (lines
760-780): skip unknown targets, store the new visibility on the record,
publish `elementDataUpdated` on a visibility flip, and — only while
intersecting — refresh the bounds and run the scroll prefetch logic with the
pre-update record. -/
def posVisit (ext : Externals) (s : ManagerState) (entry : PosEntry) : ManagerState :=
  match mapGet s.elements entry.target with
  | none => s
  | some d =>
    let wasPreviouslyIntersecting := d.isIntersectingWithViewport
    let isNowIntersecting := entry.isIntersecting
    let d1 := { d with isIntersectingWithViewport := isNowIntersecting }
    let s1 := { s with elements := mapSet s.elements entry.target d1 }
    let s2 := if wasPreviouslyIntersecting ≠ isNowIntersecting then
        emitState s1 (.elementDataUpdated entry.target)
      else s1
    if isNowIntersecting then
      let s3 := updateElementBounds s2 entry.boundingClientRect d1
      handleScrollPrefetch ext s3 d1 entry.boundingClientRect
    else s2

/-- Source `handlePositionChange` (lines 759-784): process the whole batch,
then reset the batch-cached scroll direction and predicted scroll point so the
next batch recomputes them. -/
def handlePositionChange (ext : Externals) (s : ManagerState) (entries : List PosEntry) :
    ManagerState :=
  let s1 := entries.foldl (posVisit ext) s
  { s1 with scrollDirection := none, predictedScrollPoint := none }

/-- Result of `evaluateRegistrationConditions` in the external
`helpers/shouldRegister` module (device/connectivity policy): passed in as
data. -/
structure RegistrationConditions where
  shouldRegister : Bool
  isTouchDevice : Bool
  isLimitedConnection : Bool
  deriving DecidableEq

/-- Source type `ForesightRegisterResult` (without the unregister closure). -/
structure RegisterResult where
  isTouchDevice : Bool
  isLimitedConnection : Bool
  isRegistered : Bool
  deriving DecidableEq

/-- The fresh record `register` creates (source lines 267-300):
`originalRect: undefined`, `expandedRect: {top:0,left:0,right:0,bottom:0}`,
the normalised (or default) hit slop, `isIntersectingWithViewport: true`. -/
def registerData (s1 : ManagerState) (element callback : Nat) (hitSlop : Option Rect)
    (name : Option Nat) : ElementData :=
  { element := element
    callback := callback
    callbackHits := zeroHits
    elementBounds :=
      { originalRect := none
        expandedRect := zeroRect
        hitSlop :=
          match hitSlop with
          | some h => normalizeHitSlop h
          | none => s1.globalSettings.defaultHitSlop }
    isHovering := false
    name := name
    isIntersectingWithViewport := true }

/-- Source `register` (lines 242-318).  Its option object destructures exactly
`{element, callback, hitSlop, name}` — there is no fire-once / repeat-fire
option in this source version.  A declined policy check returns an
unregistered result; otherwise the global listeners are armed on the first
element, the fresh record (`registerData`) is stored, observed (external), and
`elementRegistered` published. -/
def register (conds : RegistrationConditions) (s : ManagerState) (element : Nat)
    (callback : Nat) (hitSlop : Option Rect) (name : Option Nat) :
    ManagerState × RegisterResult :=
  if ¬ conds.shouldRegister then
    (s, ⟨conds.isTouchDevice, conds.isLimitedConnection, false⟩)
  else
    let s1 := if ¬ s.isSetup then setupGlobalListeners s else s
    let elementData := registerData s1 element callback hitSlop name
    let s2 := { s1 with elements := mapSet s1.elements element elementData }
    let s3 := emitState s2 (.elementRegistered element)
    (s3, ⟨conds.isTouchDevice, conds.isLimitedConnection, true⟩)

/-- Source `forceUpdateElementBounds` (lines 661-683), acting on the registry
and emitted trace: re-read the element's rect from the DOM, expand it with the
record's own hit slop, and only on an actual change store it and publish
`elementDataUpdated`. -/
def forceUpdateElementBounds (dom : Nat → Rect) (els : ElementMap) (em : List Emitted)
    (d : ElementData) : ElementMap × List Emitted :=
  let newOriginalRect := dom d.element
  let expandedRect := getExpandedRect newOriginalRect d.elementBounds.hitSlop
  if ¬ areRectsEqual expandedRect d.elementBounds.expandedRect then
    let d2 := { d with elementBounds :=
      { d.elementBounds with originalRect := some newOriginalRect, expandedRect := expandedRect } }
    (mapSet els d.element d2, em ++ [.elementDataUpdated d.element])
  else (els, em)

/-- Source `forceUpdateAllElementBounds` (lines 466-474): refresh bounds of
every currently intersecting record. -/
def forceUpdateAllElementBounds (dom : Nat → Rect) (els : ElementMap) (em : List Emitted) :
    ElementMap × List Emitted :=
  (mapKeys els).foldl
    (fun acc k =>
      match mapGet acc.1 k with
      | none => acc
      | some d =>
        if d.isIntersectingWithViewport then forceUpdateElementBounds dom acc.1 acc.2 d
        else acc)
    (els, em)

/-- Source partial-update type `UpdateForsightManagerSettings` restricted to
the fields `alterGlobalSettings` reads. -/
structure UpdateProps where
  positionHistorySize : Option Int
  trajectoryPredictionTime : Option Int
  scrollMargin : Option Int
  tabOffset : Option Int
  enableMousePrediction : Option Bool
  enableScrollPrediction : Option Bool
  enableTabPrediction : Option Bool
  onAnyCallbackFired : Option Nat
  defaultHitSlop : Option Rect
  deriving DecidableEq

/-- The empty partial update (every field absent). -/
def emptyProps : UpdateProps := ⟨none, none, none, none, none, none, none, none, none⟩

/-- Source `alterGlobalSettings` (lines 375-464), with the DOM geometry oracle
for the bounds recompute a hit-slop change triggers.  Order follows the
source: position history size (with immediate truncation of a now-too-long
history), trajectory prediction time, scroll margin, tab offset, the three
prediction toggles, the global hook overwrite, the default hit slop (the one
change with bulk side effects), then a single `managerSettingsChanged` emit
iff any update reported a change. -/
def alterGlobalSettings (dom : Nat → Rect) (s : ManagerState) (props : UpdateProps) :
    ManagerState :=
  let oldPositionHistorySize := s.globalSettings.positionHistorySize
  let r1 := updateNumericSettings s.globalSettings props.positionHistorySize
    .positionHistorySize MIN_POSITION_HISTORY_SIZE MAX_POSITION_HISTORY_SIZE
  let positionHistoryChanged := r1.1
  let gs1 := r1.2
  let traj :=
    if positionHistoryChanged ∧ gs1.positionHistorySize < oldPositionHistorySize then
      if (s.trajectoryPositions.positions.length : Int) > gs1.positionHistorySize then
        let dropCount :=
          ((s.trajectoryPositions.positions.length : Int) - gs1.positionHistorySize).toNat
        { s.trajectoryPositions with
          positions := s.trajectoryPositions.positions.drop dropCount }
      else s.trajectoryPositions
    else s.trajectoryPositions
  let r2 := updateNumericSettings gs1 props.trajectoryPredictionTime
    .trajectoryPredictionTime MIN_TRAJECTORY_PREDICTION_TIME MAX_TRAJECTORY_PREDICTION_TIME
  let trajectoryTimeChanged := r2.1
  let gs2 := r2.2
  let r3 := updateNumericSettings gs2 props.scrollMargin
    .scrollMargin MIN_SCROLL_MARGIN MAX_SCROLL_MARGIN
  let scrollMarginChanged := r3.1
  let gs3 := r3.2
  let r4 := updateNumericSettings gs3 props.tabOffset
    .tabOffset MIN_TAB_OFFSET MAX_TAB_OFFSET
  let tabOffsetChanged := r4.1
  let gs4 := r4.2
  let r5 := updateBooleanSetting gs4 props.enableMousePrediction .enableMousePrediction
  let mousePredictionChanged := r5.1
  let gs5 := r5.2
  let r6 := updateBooleanSetting gs5 props.enableScrollPrediction .enableScrollPrediction
  let scrollPredictionChanged := r6.1
  let gs6 := r6.2
  let r7 := updateBooleanSetting gs6 props.enableTabPrediction .enableTabPrediction
  let tabPredictionChanged := r7.1
  let gs7 := r7.2
  let gs8 :=
    match props.onAnyCallbackFired with
    | some h => { gs7 with onAnyCallbackFired := h }
    | none => gs7
  let hitSlopStep : Bool × ForesightManagerSettings × ElementMap × List Emitted :=
    match props.defaultHitSlop with
    | none => (false, gs8, s.elements, s.emitted)
    | some h =>
      let normalizedNewHitSlop := normalizeHitSlop h
      if ¬ areRectsEqual gs8.defaultHitSlop normalizedNewHitSlop then
        let gs9 := { gs8 with defaultHitSlop := normalizedNewHitSlop }
        let fu := forceUpdateAllElementBounds dom s.elements s.emitted
        (true, gs9, fu.1, fu.2)
      else (false, gs8, s.elements, s.emitted)
  let hitSlopChanged := hitSlopStep.1
  let gsFinal := hitSlopStep.2.1
  let settingsActuallyChanged :=
    positionHistoryChanged || trajectoryTimeChanged || tabOffsetChanged ||
    mousePredictionChanged || tabPredictionChanged || scrollPredictionChanged ||
    hitSlopChanged || scrollMarginChanged
  let emittedFinal :=
    if settingsActuallyChanged then hitSlopStep.2.2.2 ++ [Emitted.managerSettingsChanged]
    else hitSlopStep.2.2.2
  { s with
    globalSettings := gsFinal
    trajectoryPositions := traj
    elements := hitSlopStep.2.2.1
    emitted := emittedFinal }

/-- The engine's qualifying input events: pointer moves, Tab keydowns, focus
changes, and viewport position-update batches. -/
inductive InputEvent where
  | mouseMove (p : Point)
  | tabKeyDown (shift : Bool)
  | focusIn (target : Nat)
  | positionChange (entries : List PosEntry)
  deriving DecidableEq

/-- Dispatch of one input event to its handler. -/
def step (ext : Externals) (s : ManagerState) : InputEvent → ManagerState
  | .mouseMove p => handleMouseMove ext s p
  | .tabKeyDown shift => handleKeyDown s shift
  | .focusIn target => handleFocusIn ext s target
  | .positionChange entries => handlePositionChange ext s entries

/-- A whole stream of input events processed in order. -/
def processEvents (ext : Externals) (s : ManagerState) (evs : List InputEvent) : ManagerState :=
  evs.foldl (step ext) s

/-- Source `emit` subscriber dispatch (lines 209-220): every listener for the
event is invoked inside a try/catch whose catch only logs, so a throwing
listener yields a logged error and iteration continues.  Listeners are
modelled as pure fallible observers (`Except`); the function returns the
untouched manager state together with the per-listener outcome (`some err`
for a throw that was caught and logged, `none` for normal return). -/
def emitDispatch {Ev Er : Type} (s : ManagerState) (listeners : List (Ev → Except Er Unit))
    (event : Ev) : ManagerState × List (Option Er) :=
  (s, listeners.map (fun listener =>
    match listener event with
    | .ok _ => none
    | .error err => some err))

/-- The manager's settings at construction (source lines 94-113, with the
defaults of the missing `constants.ts` modelled from the repository's
configuration documentation; the scroll toggle and margin defaults follow the
spec's description of scroll prediction as an enabled clamped feature). -/
def defaultSettings : ForesightManagerSettings :=
  { debug := false
    enableMousePrediction := true
    enableScrollPrediction := true
    enableTabPrediction := true
    positionHistorySize := 8
    trajectoryPredictionTime := 120
    scrollMargin := 150
    tabOffset := 2
    defaultHitSlop := zeroRect
    onAnyCallbackFired := 0 }

/-- The manager's full state at construction (source field initializers,
lines 74-133). -/
def initialState : ManagerState :=
  { elements := ([] : List (Nat × ElementData))
    isSetup := false
    globalSettings := defaultSettings
    trajectoryPositions := ⟨[], ⟨0, 0⟩, ⟨0, 0⟩⟩
    globalCallbackHits := zeroHits
    tabbableElementsCache := []
    lastFocusedIndex := none
    predictedScrollPoint := none
    scrollDirection := none
    lastKeyDown := none
    listeners := ⟨false, false, false, false, false, false⟩
    emitted := []
    firedLog := []
    scrollDirComputeCount := 0
    scrollPointComputeCount := 0 }

/-
  Well-formedness of the registry: keys are unique (a JavaScript `Map`
  invariant) and each record's `element` field is its own key (true of every
  record the manager ever stores).
-/

/-- Registry well-formedness. -/
def MapWF (m : ElementMap) : Prop :=
  (mapKeys m).Nodup ∧ ∀ p ∈ m, p.2.element = p.1

instance (m : ElementMap) : Decidable (MapWF m) := by
  unfold MapWF; infer_instance

/-- Manager-state well-formedness. -/
def WF (s : ManagerState) : Prop := MapWF s.elements

instance (s : ManagerState) : Decidable (WF s) := by
  unfold WF; infer_instance

/-- Number of times element `e`'s callback has been invoked so far. -/
def firedCount (s : ManagerState) (e : Nat) : Nat := s.firedLog.count e

/-
  The at-most-once firing protocol.  For a fixed element `e`, the quantity
  `firedCount + (1 if e is registered)` never increases across input-event
  handling (firing consumes the registration), and `firedCount` never
  decreases.  Both together give: at most one fire per registration, and
  absence from the registry from the moment of the fire on.
-/

/-- The number of fires of `e` plus one pending fire for a live registration. -/
def potential (s : ManagerState) (e : Nat) : Nat :=
  firedCount s e + (if mapHas s.elements e then 1 else 0)

/-- A state transformer respects the at-most-once protocol for element `e`. -/
def Tracks (e : Nat) (f : ManagerState → ManagerState) : Prop :=
  ∀ s, WF s → WF (f s) ∧ potential (f s) e ≤ potential s e ∧
    firedCount s e ≤ firedCount (f s) e

/-- The hit test a mouse-move event applies to one element: the trajectory
segment test when mouse prediction is enabled, the physical hover test when
disabled (source `handleCallbackInteraction`). -/
def mouseHitTest (ext : Externals) (s : ManagerState) (er : Rect) : Bool :=
  if s.globalSettings.enableMousePrediction then
    ext.lineSegmentIntersectsRect s.trajectoryPositions.currentPoint
      s.trajectoryPositions.predictedPoint er
  else
    ext.isPointInRectangle s.trajectoryPositions.currentPoint er

/-- The spec's tab-target window: the up-to-(N+1) tabbable cache entries at the
indices extending from the focused index `i` in the traversal direction. -/
def tabWindow (cache : List Nat) (i : Int) (isReversed : Bool) (n : Int) : List Nat :=
  (List.range (n + 1).toNat).filterMap
    (fun j => listGetInt cache (if isReversed then i - (j : Int) else i + (j : Int)))

/-- The bounded-history invariant of `TrajectoryState`: the pointer position
history never exceeds the configured `positionHistorySize`. -/
def HistInv (s : ManagerState) : Prop :=
  s.trajectoryPositions.positions.length ≤ s.globalSettings.positionHistorySize.toNat

instance (s : ManagerState) : Decidable (HistInv s) := by
  unfold HistInv; infer_instance

/-- A partial settings update every supplied field of which already equals the
stored value (numerics and booleans raw, hit-slop after normalisation). -/
def AppliedAt (s : ManagerState) (props : UpdateProps) : Prop :=
  (∀ v, props.positionHistorySize = some v → v = s.globalSettings.positionHistorySize) ∧
  (∀ v, props.trajectoryPredictionTime = some v → v = s.globalSettings.trajectoryPredictionTime) ∧
  (∀ v, props.scrollMargin = some v → v = s.globalSettings.scrollMargin) ∧
  (∀ v, props.tabOffset = some v → v = s.globalSettings.tabOffset) ∧
  (∀ v, props.enableMousePrediction = some v → v = s.globalSettings.enableMousePrediction) ∧
  (∀ v, props.enableScrollPrediction = some v → v = s.globalSettings.enableScrollPrediction) ∧
  (∀ v, props.enableTabPrediction = some v → v = s.globalSettings.enableTabPrediction) ∧
  (∀ v, props.onAnyCallbackFired = some v → v = s.globalSettings.onAnyCallbackFired) ∧
  (∀ v, props.defaultHitSlop = some v →
    normalizeHitSlop v = s.globalSettings.defaultHitSlop)

/-- A fixed external-collaborator instantiation used by concrete witnesses:
every hit test passes, the scroll direction is always the sentinel, the
focused-index resolver returns 0, the DOM reports the zero rect. -/
def witnessExt : Externals :=
  { isPointInRectangle := fun _ _ => true
    lineSegmentIntersectsRect := fun _ _ _ => true
    getScrollDirection := fun _ _ => none
    predictNextScrollPosition := fun p _ _ => p
    getFocusedElementIndex := fun _ _ _ _ => 0
    tabbableAll := []
    dom := fun _ => zeroRect }

/-- A partial settings update every supplied numeric field of which lies within
its documented [min, max] range (equivalently: is a fixed point of its clamp). -/
def InRangeProps (props : UpdateProps) : Prop :=
  (∀ v, props.positionHistorySize = some v →
    clampNumber v MIN_POSITION_HISTORY_SIZE MAX_POSITION_HISTORY_SIZE = v) ∧
  (∀ v, props.trajectoryPredictionTime = some v →
    clampNumber v MIN_TRAJECTORY_PREDICTION_TIME MAX_TRAJECTORY_PREDICTION_TIME = v) ∧
  (∀ v, props.scrollMargin = some v →
    clampNumber v MIN_SCROLL_MARGIN MAX_SCROLL_MARGIN = v) ∧
  (∀ v, props.tabOffset = some v →
    clampNumber v MIN_TAB_OFFSET MAX_TAB_OFFSET = v)

/-- The spec's concrete tab scenario: ten tabbable elements `10..19` (so index
`j` holds element `10 + j`), the focused-index resolver lands on index 5. -/
def tabScenarioExt : Externals :=
  { witnessExt with getFocusedElementIndex := fun _ _ _ _ => 5 }

/-- The spec's concrete tab scenario state: only the elements at cache indices
6 and 7 (values 16 and 17) are registered, a forward Tab keydown is pending,
and `tabOffset` is the default 2. -/
def tabScenarioState : ManagerState :=
  { initialState with
    elements := [(16, registerData initialState 16 0 none none),
                 (17, registerData initialState 17 0 none none)]
    tabbableElementsCache := [10, 11, 12, 13, 14, 15, 16, 17, 18, 19]
    lastKeyDown := some false }

/-- The numeric-and-boolean stage chain of `alterGlobalSettings` (its `r1`-`r7`
sequence, source lines 378-412), factored out so the final value of each
settings field can be related to its own update stage. -/
def settingsChain (gs : ForesightManagerSettings) (props : UpdateProps) :
    ForesightManagerSettings :=
  (updateBooleanSetting
    (updateBooleanSetting
      (updateBooleanSetting
        (updateNumericSettings
          (updateNumericSettings
            (updateNumericSettings
              (updateNumericSettings gs props.positionHistorySize .positionHistorySize
                MIN_POSITION_HISTORY_SIZE MAX_POSITION_HISTORY_SIZE).2
              props.trajectoryPredictionTime .trajectoryPredictionTime
              MIN_TRAJECTORY_PREDICTION_TIME MAX_TRAJECTORY_PREDICTION_TIME).2
            props.scrollMargin .scrollMargin MIN_SCROLL_MARGIN MAX_SCROLL_MARGIN).2
          props.tabOffset .tabOffset MIN_TAB_OFFSET MAX_TAB_OFFSET).2
        props.enableMousePrediction .enableMousePrediction).2
      props.enableScrollPrediction .enableScrollPrediction).2
    props.enableTabPrediction .enableTabPrediction).2

theorem mapGet_mapSet_self (m : ElementMap) (k : Nat) (v : ElementData) :
    mapGet (mapSet m k v) k = some v := by
  induction m with
  | nil => simp [mapSet, mapGet]
  | cons p rest ih =>
    by_cases h : p.1 = k
    · simp [mapSet, mapGet, h]
    · simp [mapSet, mapGet, h, ih]

theorem mapGet_mapSet_ne (m : ElementMap) (k k' : Nat) (v : ElementData) (h : k' ≠ k) :
    mapGet (mapSet m k v) k' = mapGet m k' := by
  have hk : ¬ k = k' := fun hh => h hh.symm
  induction m with
  | nil => simp [mapSet, mapGet, hk]
  | cons p rest ih =>
    by_cases hp : p.1 = k
    · subst hp
      simp [mapSet, mapGet, hk]
    · simp [mapSet, mapGet, hp, ih]

theorem mapGet_mapDelete_ne (m : ElementMap) (k k' : Nat) (h : k' ≠ k) :
    mapGet (mapDelete m k) k' = mapGet m k' := by
  have hk : ¬ k = k' := fun hh => h hh.symm
  induction m with
  | nil => simp [mapDelete]
  | cons p rest ih =>
    by_cases hp : p.1 = k
    · subst hp
      simp [mapDelete, mapGet, hk]
    · simp [mapDelete, mapGet, hp, ih]

theorem mapGet_eq_none_of_not_mem_keys (m : ElementMap) (k : Nat)
    (h : k ∉ mapKeys m) : mapGet m k = none := by
  induction m with
  | nil => simp [mapGet]
  | cons p rest ih =>
    simp only [mapKeys, List.map_cons, List.mem_cons] at h
    push_neg at h
    have h1 : ¬ p.1 = k := fun hh => h.1 hh.symm
    simp [mapGet, h1, ih (by simpa [mapKeys] using h.2)]

theorem mapGet_mapDelete_self (m : ElementMap) (k : Nat) (h : (mapKeys m).Nodup) :
    mapGet (mapDelete m k) k = none := by
  induction m with
  | nil => simp [mapDelete, mapGet]
  | cons p rest ih =>
    simp only [mapKeys, List.map_cons, List.nodup_cons] at h
    by_cases hp : p.1 = k
    · subst hp
      have : mapDelete (p :: rest) p.1 = rest := by simp [mapDelete]
      rw [this]
      exact mapGet_eq_none_of_not_mem_keys rest p.1 (by simpa [mapKeys] using h.1)
    · simp [mapDelete, mapGet, hp, ih h.2]

theorem mapKeys_mapSet_of_has (m : ElementMap) (k : Nat) (v : ElementData)
    (h : mapHas m k = true) : mapKeys (mapSet m k v) = mapKeys m := by
  induction m with
  | nil => simp [mapHas, mapGet] at h
  | cons p rest ih =>
    by_cases hp : p.1 = k
    · simp [mapSet, mapKeys, hp]
    · simp only [mapHas, mapGet, hp, if_false] at h
      have := ih h
      simp only [mapSet, hp, if_false, mapKeys, List.map_cons]
      simpa [mapKeys] using this

theorem mapKeys_mapSet_of_not_has (m : ElementMap) (k : Nat) (v : ElementData)
    (h : mapHas m k = false) : mapKeys (mapSet m k v) = mapKeys m ++ [k] := by
  induction m with
  | nil => simp [mapSet, mapKeys]
  | cons p rest ih =>
    by_cases hp : p.1 = k
    · simp [mapHas, mapGet, hp] at h
    · simp only [mapHas, mapGet, hp, if_false] at h
      have := ih h
      simp only [mapSet, hp, if_false, mapKeys, List.map_cons]
      simpa [mapKeys] using this

theorem mapKeys_mapDelete_sublist (m : ElementMap) (k : Nat) :
    (mapKeys (mapDelete m k)).Sublist (mapKeys m) := by
  induction m with
  | nil => simp [mapDelete]
  | cons p rest ih =>
    by_cases hp : p.1 = k
    · simp only [mapDelete, hp, if_true]
      exact (List.sublist_cons_self _ _)
    · simpa [mapDelete, hp, mapKeys] using ih.cons₂ p.1

theorem mapKeys_bumpElementCounters (m : ElementMap) (k : Nat) (ht : HitType) :
    mapKeys (bumpElementCounters m k ht) = mapKeys m := by
  induction m with
  | nil => simp [bumpElementCounters]
  | cons p rest ih =>
    by_cases hp : p.1 = k
    · simp [bumpElementCounters, hp, mapKeys]
    · simp only [bumpElementCounters, hp, if_false, mapKeys, List.map_cons]
      simpa [mapKeys] using ih

theorem mapGet_bumpElementCounters_ne (m : ElementMap) (k k' : Nat) (ht : HitType)
    (h : k' ≠ k) : mapGet (bumpElementCounters m k ht) k' = mapGet m k' := by
  have hk : ¬ k = k' := fun hh => h hh.symm
  induction m with
  | nil => simp [bumpElementCounters]
  | cons p rest ih =>
    by_cases hp : p.1 = k
    · subst hp
      simp [bumpElementCounters, mapGet, hk]
    · simp [bumpElementCounters, mapGet, hp, ih]

theorem mapHas_bumpElementCounters (m : ElementMap) (k k' : Nat) (ht : HitType) :
    mapHas (bumpElementCounters m k ht) k' = mapHas m k' := by
  induction m with
  | nil => simp [bumpElementCounters]
  | cons p rest ih =>
    by_cases hp : p.1 = k
    · subst hp
      by_cases hp' : p.1 = k'
      · simp [bumpElementCounters, mapHas, mapGet, hp']
      · simp [bumpElementCounters, mapHas, mapGet, hp']
    · by_cases hp' : p.1 = k'
      · have hne : ¬ k' = k := fun hh => hp (hp'.symm ▸ hh : p.1 = k)
        simp [bumpElementCounters, mapHas, mapGet, hp, hp', hne]
      · simp only [bumpElementCounters, hp, if_false]
        simp only [mapHas, mapGet, hp', if_false]
        exact ih

theorem mem_mapSet (m : ElementMap) (k : Nat) (v : ElementData) (p : Nat × ElementData)
    (h : p ∈ mapSet m k v) : p = (k, v) ∨ p ∈ m := by
  induction m with
  | nil => simpa [mapSet] using h
  | cons q rest ih =>
    by_cases hq : q.1 = k
    · simp only [mapSet, hq, if_true, List.mem_cons] at h
      rcases h with h | h
      · exact Or.inl h
      · exact Or.inr (List.mem_cons_of_mem q h)
    · simp only [mapSet, hq, if_false, List.mem_cons] at h
      rcases h with h | h
      · exact Or.inr (h ▸ List.mem_cons_self q rest)
      · rcases ih h with h' | h'
        · exact Or.inl h'
        · exact Or.inr (List.mem_cons_of_mem q h')

theorem mapDelete_sublist (m : ElementMap) (k : Nat) : (mapDelete m k).Sublist m := by
  induction m with
  | nil => simp [mapDelete]
  | cons p rest ih =>
    by_cases hp : p.1 = k
    · simp only [mapDelete, hp, if_true]
      exact List.sublist_cons_self p rest
    · simp only [mapDelete, hp, if_false]
      exact ih.cons₂ p

theorem mem_bumpElementCounters (m : ElementMap) (k : Nat) (ht : HitType)
    (p : Nat × ElementData) (h : p ∈ bumpElementCounters m k ht) :
    ∃ q ∈ m, q.1 = p.1 ∧ q.2.element = p.2.element := by
  induction m with
  | nil => simp [bumpElementCounters] at h
  | cons q rest ih =>
    by_cases hq : q.1 = k
    · simp only [bumpElementCounters, hq, if_true, List.mem_cons] at h
      rcases h with h | h
      · subst h
        exact ⟨q, List.mem_cons_self q rest, by simp [hq]⟩
      · exact ⟨p, List.mem_cons_of_mem q h, rfl, rfl⟩
    · simp only [bumpElementCounters, hq, if_false, List.mem_cons] at h
      rcases h with h | h
      · exact ⟨q, List.mem_cons_self q rest, by simp [h]⟩
      · rcases ih h with ⟨r, hr, h1, h2⟩
        exact ⟨r, List.mem_cons_of_mem q hr, h1, h2⟩

theorem mapGet_mem (m : ElementMap) (k : Nat) (d : ElementData)
    (h : mapGet m k = some d) : (k, d) ∈ m := by
  induction m with
  | nil => simp [mapGet] at h
  | cons p rest ih =>
    by_cases hp : p.1 = k
    · simp only [mapGet, hp, if_true, Option.some.injEq] at h
      subst h
      subst hp
      exact List.mem_cons_self p rest
    · simp only [mapGet, hp, if_false] at h
      exact List.mem_cons_of_mem p (ih h)

theorem MapWF.element_of_get {m : ElementMap} {k : Nat} {d : ElementData}
    (wf : MapWF m) (h : mapGet m k = some d) : d.element = k :=
  wf.2 (k, d) (mapGet_mem m k d h)

theorem mapHas_of_mem_keys (m : ElementMap) (k : Nat) (h : k ∈ mapKeys m) :
    mapHas m k = true := by
  induction m with
  | nil => simp [mapKeys] at h
  | cons p rest ih =>
    by_cases hp : p.1 = k
    · simp [mapHas, mapGet, hp]
    · simp only [mapKeys, List.map_cons, List.mem_cons] at h
      rcases h with h | h
      · exact absurd h.symm hp
      · simp only [mapHas, mapGet, hp, if_false]
        exact ih (by simpa [mapKeys] using h)

theorem MapWF.mapSet {m : ElementMap} {k : Nat} {v : ElementData}
    (wf : MapWF m) (hv : v.element = k) : MapWF (mapSet m k v) := by
  constructor
  · by_cases h : mapHas m k = true
    · rw [mapKeys_mapSet_of_has m k v h]; exact wf.1
    · rw [mapKeys_mapSet_of_not_has m k v (by simpa using h)]
      refine List.Nodup.append wf.1 (List.nodup_singleton k) ?_
      intro a ha hb
      simp only [List.mem_singleton] at hb
      subst hb
      exact h (mapHas_of_mem_keys m a ha)
  · intro p hp
    rcases mem_mapSet m k v p hp with h | h
    · rw [h]; exact hv
    · exact wf.2 p h

theorem MapWF.mapDelete {m : ElementMap} {k : Nat} (wf : MapWF m) :
    MapWF (mapDelete m k) :=
  ⟨(mapKeys_mapDelete_sublist m k).nodup wf.1,
   fun p hp => wf.2 p ((mapDelete_sublist m k).mem hp)⟩

theorem MapWF.bump {m : ElementMap} {k : Nat} {ht : HitType} (wf : MapWF m) :
    MapWF (bumpElementCounters m k ht) := by
  constructor
  · rw [mapKeys_bumpElementCounters]; exact wf.1
  · intro p hp
    rcases mem_bumpElementCounters m k ht p hp with ⟨q, hq, h1, h2⟩
    rw [← h2, wf.2 q hq, h1]

theorem tracks_of_untouched {e : Nat} {f : ManagerState → ManagerState}
    (h : ∀ s, (f s).elements = s.elements ∧ (f s).firedLog = s.firedLog) : Tracks e f := by
  intro s hwf
  refine ⟨?_, ?_, ?_⟩
  · unfold WF; rw [(h s).1]; exact hwf
  · unfold potential firedCount; rw [(h s).1, (h s).2]
  · unfold firedCount; rw [(h s).2]

theorem tracks_comp {e : Nat} {f g : ManagerState → ManagerState}
    (hf : Tracks e f) (hg : Tracks e g) : Tracks e (fun s => g (f s)) := by
  intro s hwf
  obtain ⟨w1, p1, c1⟩ := hf s hwf
  obtain ⟨w2, p2, c2⟩ := hg (f s) w1
  exact ⟨w2, p2.trans p1, c1.trans c2⟩

theorem tracks_foldl {α : Type} {e : Nat} {f : ManagerState → α → ManagerState}
    (hf : ∀ a, Tracks e (fun s => f s a)) (l : List α) :
    Tracks e (fun s => l.foldl f s) := by
  induction l with
  | nil => exact fun s hwf => ⟨hwf, le_refl _, le_refl _⟩
  | cons a rest ih =>
    intro s hwf
    obtain ⟨w1, p1, c1⟩ := hf a s hwf
    obtain ⟨w2, p2, c2⟩ := ih (f s a) w1
    exact ⟨w2, p2.trans p1, c1.trans c2⟩

theorem count_append_singleton (l : List Nat) (a e : Nat) :
    (l ++ [a]).count e = l.count e + (if e = a then 1 else 0) := by
  by_cases h : e = a
  · subst h; simp [List.count_append]
  · simp [List.count_append, List.count_singleton, h]

/-- The behaviour of `callCallback` on a defined record whose element is
present in a well-formed registry: the callback is invoked once (appended to
the log), the counters are bumped, and the element is gone afterwards while
everything the mouse/tab/scroll folds later read is untouched. -/
theorem callCallback_some (s : ManagerState) (d : ElementData) (ht : HitType)
    (hwf : WF s) (hpres : mapHas s.elements d.element = true) :
    WF (callCallback s (some d) ht) ∧
    (callCallback s (some d) ht).firedLog = s.firedLog ++ [d.element] ∧
    mapGet (callCallback s (some d) ht).elements d.element = none ∧
    (∀ k, k ≠ d.element → mapGet (callCallback s (some d) ht).elements k = mapGet s.elements k) ∧
    (callCallback s (some d) ht).globalSettings = s.globalSettings ∧
    (callCallback s (some d) ht).trajectoryPositions = s.trajectoryPositions := by
  unfold callCallback
  simp only []
  set s1 : ManagerState := { s with
    elements := bumpElementCounters s.elements d.element ht
    globalCallbackHits := bumpHits s.globalCallbackHits ht } with hs1
  set s2 : ManagerState := { s1 with firedLog := s1.firedLog ++ [d.element] } with hs2
  set s3 : ManagerState := emitState s2 (.callbackFired d.element ht) with hs3
  have hwf3 : MapWF s3.elements := by
    simp only [hs3, emitState, hs2, hs1]
    exact hwf.bump
  have hpres3 : mapHas s3.elements d.element = true := by
    simp only [hs3, emitState, hs2, hs1]
    rw [mapHas_bumpElementCounters]
    exact hpres
  have hlog3 : s3.firedLog = s.firedLog ++ [d.element] := by
    simp [hs3, emitState, hs2, hs1]
  have hels3 : s3.elements = bumpElementCounters s.elements d.element ht := by
    simp [hs3, emitState, hs2, hs1]
  have hset3 : s3.globalSettings = s.globalSettings := by simp [hs3, emitState, hs2, hs1]
  have htraj3 : s3.trajectoryPositions = s.trajectoryPositions := by
    simp [hs3, emitState, hs2, hs1]
  unfold unregister
  rw [hpres3]
  simp only [Bool.true_eq_false, not_true_eq_false, if_false, ite_not]
  set s4 : ManagerState := { emitState s3 (.elementUnregistered d.element) with
    elements := mapDelete (emitState s3 (.elementUnregistered d.element)).elements d.element }
    with hs4
  have hels4 : s4.elements = mapDelete s3.elements d.element := by simp [hs4, emitState]
  have hlog4 : s4.firedLog = s.firedLog ++ [d.element] := by
    simp only [hs4, emitState]
    exact hlog3
  have hwf4 : MapWF s4.elements := by rw [hels4]; exact hwf3.mapDelete
  have hget4 : mapGet s4.elements d.element = none := by
    rw [hels4]
    exact mapGet_mapDelete_self _ _ hwf3.1
  have hother4 : ∀ k, k ≠ d.element → mapGet s4.elements k = mapGet s.elements k := by
    intro k hk
    rw [hels4, mapGet_mapDelete_ne _ _ _ hk, hels3, mapGet_bumpElementCounters_ne _ _ _ _ hk]
  have hset4 : s4.globalSettings = s.globalSettings := by
    simp only [hs4, emitState]; exact hset3
  have htraj4 : s4.trajectoryPositions = s.trajectoryPositions := by
    simp only [hs4, emitState]; exact htraj3
  by_cases hcond : mapSize s4.elements = 0 ∧ s4.isSetup
  · rw [if_pos hcond]
    refine ⟨hwf4, hlog4, hget4, hother4, hset4, htraj4⟩
  · rw [if_neg hcond]
    exact ⟨hwf4, hlog4, hget4, hother4, hset4, htraj4⟩

theorem callCallback_none (s : ManagerState) (ht : HitType) :
    callCallback s none ht = s := rfl

/-- `callCallback` on a present record respects the at-most-once protocol. -/
theorem callCallback_tracks_aux (e : Nat) (s : ManagerState) (d : ElementData) (ht : HitType)
    (hwf : WF s) (hpres : mapHas s.elements d.element = true) :
    WF (callCallback s (some d) ht) ∧
    potential (callCallback s (some d) ht) e ≤ potential s e ∧
    firedCount s e ≤ firedCount (callCallback s (some d) ht) e := by
  obtain ⟨hw, hlog, hgone, hother, -, -⟩ := callCallback_some s d ht hwf hpres
  have hcount : firedCount (callCallback s (some d) ht) e =
      firedCount s e + (if e = d.element then 1 else 0) := by
    unfold firedCount
    rw [hlog, count_append_singleton]
  refine ⟨hw, ?_, ?_⟩
  · unfold potential
    rw [hcount]
    by_cases he : e = d.element
    · have h1 : mapHas (callCallback s (some d) ht).elements e = false := by
        rw [he]; simp [mapHas, hgone]
      have h2 : mapHas s.elements e = true := by rw [he]; exact hpres
      rw [if_pos he, h1, h2]
      simp
    · have h1 : mapHas (callCallback s (some d) ht).elements e = mapHas s.elements e := by
        simp [mapHas, hother e he]
      rw [if_neg he, h1]
      simp
  · rw [hcount]; omega

/-- `handleCallbackInteraction` on a present record respects the at-most-once
protocol. -/
theorem interaction_tracks_aux (ext : Externals) (e : Nat) (s : ManagerState)
    (d : ElementData) (hwf : WF s) (hpres : mapHas s.elements d.element = true) :
    WF (handleCallbackInteraction ext s d) ∧
    potential (handleCallbackInteraction ext s d) e ≤ potential s e ∧
    firedCount s e ≤ firedCount (handleCallbackInteraction ext s d) e := by
  unfold handleCallbackInteraction
  by_cases hm : s.globalSettings.enableMousePrediction
  · simp only [hm, not_true_eq_false, if_false]
    by_cases hit : ext.lineSegmentIntersectsRect s.trajectoryPositions.currentPoint
        s.trajectoryPositions.predictedPoint d.elementBounds.expandedRect
    · simp only [hit, if_true]
      exact callCallback_tracks_aux e s d _ hwf hpres
    · simp only [hit, if_false]
      exact ⟨hwf, le_refl _, le_refl _⟩
  · simp only [hm, not_false_eq_true, if_true]
    by_cases hit : ext.isPointInRectangle s.trajectoryPositions.currentPoint
        d.elementBounds.expandedRect
    · simp only [hit, if_true]
      exact callCallback_tracks_aux e s d _ hwf hpres
    · simp only [hit, if_false]
      exact ⟨hwf, le_refl _, le_refl _⟩

theorem tracks_mouseMoveVisit (ext : Externals) (e k : Nat) :
    Tracks e (fun s => mouseMoveVisit ext s k) := by
  intro s hwf
  have goal : WF (mouseMoveVisit ext s k) ∧
      potential (mouseMoveVisit ext s k) e ≤ potential s e ∧
      firedCount s e ≤ firedCount (mouseMoveVisit ext s k) e := by
    unfold mouseMoveVisit
    cases hg : mapGet s.elements k with
    | none => exact ⟨hwf, le_refl _, le_refl _⟩
    | some d =>
      have hpres : mapHas s.elements d.element = true := by
        rw [MapWF.element_of_get hwf hg]
        simp [mapHas, hg]
      cases hv : d.isIntersectingWithViewport with
      | false =>
        simp only [hv, Bool.false_eq_true, not_false_eq_true, if_true]
        exact ⟨hwf, le_refl _, le_refl _⟩
      | true =>
        simp only [hv, not_true_eq_false, if_false]
        exact interaction_tracks_aux ext e s d hwf hpres
  exact goal

theorem tracks_refetchFire (e el : Nat) (ht : HitType) :
    Tracks e (fun s => callCallback s (mapGet s.elements el) ht) := by
  intro s hwf
  have goal : WF (callCallback s (mapGet s.elements el) ht) ∧
      potential (callCallback s (mapGet s.elements el) ht) e ≤ potential s e ∧
      firedCount s e ≤ firedCount (callCallback s (mapGet s.elements el) ht) e := by
    cases hg : mapGet s.elements el with
    | none => exact ⟨hwf, le_refl _, le_refl _⟩
    | some d =>
      have hpres : mapHas s.elements d.element = true := by
        rw [MapWF.element_of_get hwf hg]
        simp [mapHas, hg]
      exact callCallback_tracks_aux e s d ht hwf hpres
  exact goal

/-- The state invariants `potential`, `firedCount` and `WF` only read the
`elements` and `firedLog` fields. -/
theorem tracks_fields_aux (e : Nat) (s t : ManagerState)
    (hels : t.elements = s.elements) (hlog : t.firedLog = s.firedLog) (hwf : WF s) :
    WF t ∧ potential t e ≤ potential s e ∧ firedCount s e ≤ firedCount t e := by
  refine ⟨?_, ?_, ?_⟩
  · unfold WF at *; rw [hels]; exact hwf
  · unfold potential firedCount mapHas; rw [hels, hlog]
  · unfold firedCount; rw [hlog]

/-- The common tail of the scroll-prediction branch of `handleScrollPrefetch`:
a possible fire followed by the `scrollTrajectoryUpdate` emit. -/
theorem prefetch_tail_tracks_aux (e : Nat) (s s2 : ManagerState) (d : ElementData)
    (axis : ScrollAxis) (c : Bool)
    (hels : s2.elements = s.elements) (hlog : s2.firedLog = s.firedLog) (hwf : WF s)
    (hpres : mapHas s.elements d.element = true) :
    WF (emitState (if c then callCallback s2 (some d) (.scroll axis) else s2)
      .scrollTrajectoryUpdate) ∧
    potential (emitState (if c then callCallback s2 (some d) (.scroll axis) else s2)
      .scrollTrajectoryUpdate) e ≤ potential s e ∧
    firedCount s e ≤ firedCount (emitState
      (if c then callCallback s2 (some d) (.scroll axis) else s2) .scrollTrajectoryUpdate) e := by
  have hwf2 : WF s2 := by unfold WF at *; rw [hels]; exact hwf
  have hpres2 : mapHas s2.elements d.element = true := by rw [hels]; exact hpres
  cases c with
  | false =>
    simp only [Bool.false_eq_true, if_false]
    exact tracks_fields_aux e s (emitState s2 .scrollTrajectoryUpdate)
      (by simp [emitState, hels]) (by simp [emitState, hlog]) hwf
  | true =>
    simp only [if_true]
    obtain ⟨w, p, cc⟩ := callCallback_tracks_aux e s2 d (.scroll axis) hwf2 hpres2
    obtain ⟨w2, p2, c2⟩ := tracks_fields_aux e (callCallback s2 (some d) (.scroll axis))
      (emitState (callCallback s2 (some d) (.scroll axis)) .scrollTrajectoryUpdate)
      (by simp [emitState]) (by simp [emitState]) w
    have hpot : potential s2 e = potential s e := by
      unfold potential firedCount mapHas; rw [hels, hlog]
    have hcnt : firedCount s2 e = firedCount s e := by unfold firedCount; rw [hlog]
    exact ⟨w2, p2.trans (hpot ▸ p), (hcnt ▸ cc).trans c2⟩

/-- `handleScrollPrefetch` on a record whose element is present respects the
at-most-once protocol. -/
theorem scrollPrefetch_tracks_aux (ext : Externals) (e : Nat) (s : ManagerState)
    (d : ElementData) (newRect : Rect) (hwf : WF s)
    (hpres : mapHas s.elements d.element = true) :
    WF (handleScrollPrefetch ext s d newRect) ∧
    potential (handleScrollPrefetch ext s d newRect) e ≤ potential s e ∧
    firedCount s e ≤ firedCount (handleScrollPrefetch ext s d newRect) e := by
  unfold handleScrollPrefetch
  by_cases hsp : s.globalSettings.enableScrollPrediction
  · simp only [hsp, if_true]
    cases ho : d.elementBounds.originalRect with
    | none => exact ⟨hwf, le_refl _, le_refl _⟩
    | some oldRect =>
      simp only []
      cases hsd : s.scrollDirection with
      | some dv =>
        simp only []
        cases dv with
        | none => exact ⟨hwf, le_refl _, le_refl _⟩
        | some axis =>
          simp only []
          cases hpp : s.predictedScrollPoint with
          | some pt =>
            simp only []
            exact prefetch_tail_tracks_aux e s s d axis _ rfl rfl hwf hpres
          | none =>
            simp only []
            exact prefetch_tail_tracks_aux e s _ d axis _ rfl rfl hwf hpres
      | none =>
        simp only []
        cases hgd : ext.getScrollDirection oldRect newRect with
        | none =>
          exact tracks_fields_aux e s _ rfl rfl hwf
        | some axis =>
          simp only []
          cases hpp : s.predictedScrollPoint with
          | some pt =>
            simp only []
            exact prefetch_tail_tracks_aux e s _ d axis _ rfl rfl hwf hpres
          | none =>
            simp only []
            exact prefetch_tail_tracks_aux e s _ d axis _ rfl rfl hwf hpres
  · simp only [hsp, if_false]
    by_cases hit : ext.isPointInRectangle s.trajectoryPositions.currentPoint
        d.elementBounds.expandedRect
    · simp only [hit, if_true]
      exact callCallback_tracks_aux e s d _ hwf hpres
    · simp only [hit, if_false]
      exact ⟨hwf, le_refl _, le_refl _⟩

theorem mapHas_mapSet_of_has (m : ElementMap) (k e : Nat) (v : ElementData)
    (hpres : mapHas m k = true) : mapHas (mapSet m k v) e = mapHas m e := by
  by_cases he : e = k
  · subst he
    rw [hpres]
    simp [mapHas, mapGet_mapSet_self]
  · simp [mapHas, mapGet_mapSet_ne m k e v he]

/-- A `Map.set` on an already present, coherent key leaves the protocol
quantities unchanged. -/
theorem set_present_aux (e k : Nat) (v : ElementData) (s t : ManagerState)
    (hels : t.elements = mapSet s.elements k v) (hlog : t.firedLog = s.firedLog)
    (hwf : WF s) (hpres : mapHas s.elements k = true) (hv : v.element = k) :
    WF t ∧ potential t e = potential s e ∧ firedCount t e = firedCount s e := by
  refine ⟨?_, ?_, ?_⟩
  · unfold WF at *
    rw [hels]
    exact hwf.mapSet hv
  · unfold potential firedCount
    rw [hels, hlog, mapHas_mapSet_of_has s.elements k e v hpres]
  · unfold firedCount; rw [hlog]

theorem mapHas_mapSet_self (m : ElementMap) (k : Nat) (v : ElementData) :
    mapHas (mapSet m k v) k = true := by
  simp [mapHas, mapGet_mapSet_self]

/-- The intersecting tail of `posVisit`: bounds refresh followed by the scroll
prefetch, starting from any state whose registry is the original one with the
record re-stored under its key. -/
theorem posVisit_tail_aux (ext : Externals) (e k : Nat) (s s2 : ManagerState)
    (d1 : ElementData) (rect : Rect)
    (hels : s2.elements = mapSet s.elements k d1) (hlog : s2.firedLog = s.firedLog)
    (hwf : WF s) (hv : d1.element = k) (hpres : mapHas s.elements k = true) :
    WF (handleScrollPrefetch ext (updateElementBounds s2 rect d1) d1 rect) ∧
    potential (handleScrollPrefetch ext (updateElementBounds s2 rect d1) d1 rect) e ≤
      potential s e ∧
    firedCount s e ≤
      firedCount (handleScrollPrefetch ext (updateElementBounds s2 rect d1) d1 rect) e := by
  obtain ⟨w2, p2, c2⟩ := set_present_aux e k d1 s s2 hels hlog hwf hpres hv
  have hpres2 : mapHas s2.elements d1.element = true := by
    rw [hv, hels]
    exact mapHas_mapSet_self s.elements k d1
  obtain ⟨w3, p3, c3⟩ := set_present_aux e d1.element
    { d1 with elementBounds :=
      { d1.elementBounds with
        originalRect := some rect
        expandedRect := getExpandedRect rect d1.elementBounds.hitSlop } }
    s2 (updateElementBounds s2 rect d1) rfl rfl w2 hpres2 rfl
  have hpres3 : mapHas (updateElementBounds s2 rect d1).elements d1.element = true := by
    show mapHas (mapSet s2.elements d1.element _) d1.element = true
    exact mapHas_mapSet_self _ _ _
  obtain ⟨w4, p4, c4⟩ := scrollPrefetch_tracks_aux ext e (updateElementBounds s2 rect d1) d1
    rect w3 hpres3
  refine ⟨w4, ?_, ?_⟩
  · calc potential (handleScrollPrefetch ext (updateElementBounds s2 rect d1) d1 rect) e
        ≤ potential (updateElementBounds s2 rect d1) e := p4
      _ = potential s2 e := p3
      _ = potential s e := p2
  · calc firedCount s e = firedCount s2 e := c2.symm
      _ = firedCount (updateElementBounds s2 rect d1) e := c3.symm
      _ ≤ firedCount (handleScrollPrefetch ext (updateElementBounds s2 rect d1) d1 rect) e := c4

theorem tracks_posVisit (ext : Externals) (e : Nat) (entry : PosEntry) :
    Tracks e (fun s => posVisit ext s entry) := by
  intro s hwf
  have goal : WF (posVisit ext s entry) ∧
      potential (posVisit ext s entry) e ≤ potential s e ∧
      firedCount s e ≤ firedCount (posVisit ext s entry) e := by
    unfold posVisit
    cases hg : mapGet s.elements entry.target with
    | none => exact ⟨hwf, le_refl _, le_refl _⟩
    | some d =>
      simp only []
      have hd : d.element = entry.target := hwf.element_of_get hg
      have hpres : mapHas s.elements entry.target = true := by simp [mapHas, hg]
      cases hni : entry.isIntersecting with
      | true =>
        cases hvw : d.isIntersectingWithViewport with
        | true =>
          exact
            let d1 : ElementData := { d with isIntersectingWithViewport := true }
            let s1 : ManagerState := { s with elements := mapSet s.elements entry.target d1 }
            posVisit_tail_aux ext e entry.target s s1 d1
              entry.boundingClientRect rfl rfl hwf hd hpres
        | false =>
          exact
            let d1 : ElementData := { d with isIntersectingWithViewport := true }
            let s1 : ManagerState := { s with elements := mapSet s.elements entry.target d1 }
            posVisit_tail_aux ext e entry.target s
              (emitState s1 (.elementDataUpdated entry.target)) d1
              entry.boundingClientRect rfl rfl hwf hd hpres
      | false =>
        cases hvw : d.isIntersectingWithViewport with
        | true =>
          obtain ⟨w, p, c⟩ :=
            let d1 : ElementData := { d with isIntersectingWithViewport := false }
            let s1 : ManagerState := { s with elements := mapSet s.elements entry.target d1 }
            set_present_aux e entry.target d1 s
              (emitState s1 (.elementDataUpdated entry.target)) rfl rfl hwf hpres hd
          exact ⟨w, le_of_eq p, le_of_eq c.symm⟩
        | false =>
          obtain ⟨w, p, c⟩ :=
            let d1 : ElementData := { d with isIntersectingWithViewport := false }
            let s1 : ManagerState := { s with elements := mapSet s.elements entry.target d1 }
            set_present_aux e entry.target d1 s s1 rfl rfl hwf hpres hd
          exact ⟨w, le_of_eq p, le_of_eq c.symm⟩
  exact goal

theorem updatePointerState_elements (s : ManagerState) (p : Point) :
    (updatePointerState s p).elements = s.elements := by
  unfold updatePointerState; split <;> rfl

theorem updatePointerState_firedLog (s : ManagerState) (p : Point) :
    (updatePointerState s p).firedLog = s.firedLog := by
  unfold updatePointerState; split <;> rfl

theorem updatePointerState_globalSettings (s : ManagerState) (p : Point) :
    (updatePointerState s p).globalSettings = s.globalSettings := by
  unfold updatePointerState; split <;> rfl

/-- Every input-event handler respects the at-most-once protocol for every
element. -/
theorem tracks_step (ext : Externals) (e : Nat) (ev : InputEvent) :
    Tracks e (fun s => step ext s ev) := by
  cases ev with
  | mouseMove p =>
    intro s hwf
    obtain ⟨w1, p1, c1⟩ := tracks_fields_aux e s (updatePointerState s p)
      (updatePointerState_elements s p) (updatePointerState_firedLog s p) hwf
    obtain ⟨w2, p2, c2⟩ := tracks_foldl (fun k => tracks_mouseMoveVisit ext e k)
      (mapKeys (updatePointerState s p).elements) (updatePointerState s p) w1
    exact ⟨w2, p2.trans p1, c1.trans c2⟩
  | tabKeyDown shift =>
    exact tracks_of_untouched (fun s => ⟨rfl, rfl⟩)
  | focusIn target =>
    intro s hwf
    have goal : WF (handleFocusIn ext s target) ∧
        potential (handleFocusIn ext s target) e ≤ potential s e ∧
        firedCount s e ≤ firedCount (handleFocusIn ext s target) e := by
      unfold handleFocusIn
      cases hkd : s.lastKeyDown with
      | none => exact ⟨hwf, le_refl _, le_refl _⟩
      | some isReversed =>
        cases htp : s.globalSettings.enableTabPrediction with
        | false =>
          simp only [Bool.false_eq_true, not_false_eq_true, if_true]
          exact ⟨hwf, le_refl _, le_refl _⟩
        | true =>
          simp only [not_true_eq_false, if_false]
          exact tracks_foldl
            (fun el => tracks_refetchFire e el
              (.tab (if isReversed then .reverse else .forwards))) _ _ hwf
    exact goal
  | positionChange entries =>
    intro s hwf
    exact tracks_foldl (fun en => tracks_posVisit ext e en) entries s hwf

/-- A whole input-event stream respects the at-most-once protocol. -/
theorem tracks_processEvents (ext : Externals) (e : Nat) (evs : List InputEvent) :
    Tracks e (fun s => processEvents ext s evs) :=
  tracks_foldl (fun ev => tracks_step ext e ev) evs

/-
  Exact firing behaviour of one mouse-move event towards one element: visiting
  any other element's key leaves everything the element's own visit reads
  untouched, so the element fires exactly when its own hit test passes.
-/

theorem mem_keys_of_get {m : ElementMap} {e : Nat} {d : ElementData}
    (h : mapGet m e = some d) : e ∈ mapKeys m := by
  have := mapGet_mem m e d h
  exact List.mem_map_of_mem Prod.fst this

/-- Visiting a key other than `e` does not change what `e`'s visit will read. -/
theorem mouseMoveVisit_preserves (ext : Externals) (e k : Nat) (s : ManagerState)
    (hwf : WF s) (hne : k ≠ e) :
    mapGet (mouseMoveVisit ext s k).elements e = mapGet s.elements e ∧
    firedCount (mouseMoveVisit ext s k) e = firedCount s e ∧
    (mouseMoveVisit ext s k).globalSettings = s.globalSettings ∧
    (mouseMoveVisit ext s k).trajectoryPositions = s.trajectoryPositions ∧
    WF (mouseMoveVisit ext s k) := by
  have goal : mapGet (mouseMoveVisit ext s k).elements e = mapGet s.elements e ∧
      firedCount (mouseMoveVisit ext s k) e = firedCount s e ∧
      (mouseMoveVisit ext s k).globalSettings = s.globalSettings ∧
      (mouseMoveVisit ext s k).trajectoryPositions = s.trajectoryPositions ∧
      WF (mouseMoveVisit ext s k) := by
    unfold mouseMoveVisit
    cases hg : mapGet s.elements k with
    | none => exact ⟨rfl, rfl, rfl, rfl, hwf⟩
    | some dk =>
      have hdk : dk.element = k := hwf.element_of_get hg
      have hne' : e ≠ dk.element := by rw [hdk]; exact fun hh => hne hh.symm
      have hpres : mapHas s.elements dk.element = true := by
        rw [hdk]; simp [mapHas, hg]
      cases hvw : dk.isIntersectingWithViewport with
      | false =>
        simp only [hvw, Bool.false_eq_true, not_false_eq_true, if_true]
        refine ⟨?_, ?_, ?_, ?_, hwf⟩ <;> trivial
      | true =>
        simp only [hvw, not_true_eq_false, if_false]
        unfold handleCallbackInteraction
        have fire_facts : ∀ ht : HitType,
            mapGet (callCallback s (some dk) ht).elements e = mapGet s.elements e ∧
            firedCount (callCallback s (some dk) ht) e = firedCount s e ∧
            (callCallback s (some dk) ht).globalSettings = s.globalSettings ∧
            (callCallback s (some dk) ht).trajectoryPositions = s.trajectoryPositions ∧
            WF (callCallback s (some dk) ht) := by
          intro ht
          obtain ⟨hw, hlog, -, hother, hset, htraj⟩ := callCallback_some s dk ht hwf hpres
          refine ⟨hother e hne', ?_, hset, htraj, hw⟩
          unfold firedCount
          rw [hlog, count_append_singleton]
          simp [show ¬ e = dk.element from hne']
        by_cases hm : s.globalSettings.enableMousePrediction
        · simp only [hm, not_true_eq_false, if_false]
          by_cases hit : ext.lineSegmentIntersectsRect s.trajectoryPositions.currentPoint
              s.trajectoryPositions.predictedPoint dk.elementBounds.expandedRect
          · simp only [hit, if_true]
            exact fire_facts _
          · simp only [hit, if_false]
            exact ⟨rfl, rfl, rfl, rfl, hwf⟩
        · simp only [hm, not_false_eq_true, if_true]
          by_cases hit : ext.isPointInRectangle s.trajectoryPositions.currentPoint
              dk.elementBounds.expandedRect
          · simp only [hit, if_true]
            exact fire_facts _
          · simp only [hit, if_false]
            exact ⟨rfl, rfl, rfl, rfl, hwf⟩
  exact goal

/-- Once `e` is gone from the registry, no visit resurrects or re-fires it. -/
theorem mouseMoveVisit_absent (ext : Externals) (e k : Nat) (s : ManagerState)
    (hwf : WF s) (habs : mapGet s.elements e = none) :
    mapGet (mouseMoveVisit ext s k).elements e = none ∧
    firedCount (mouseMoveVisit ext s k) e = firedCount s e ∧
    (mouseMoveVisit ext s k).globalSettings = s.globalSettings ∧
    (mouseMoveVisit ext s k).trajectoryPositions = s.trajectoryPositions ∧
    WF (mouseMoveVisit ext s k) := by
  by_cases hk : k = e
  · subst hk
    have : mouseMoveVisit ext s k = s := by
      unfold mouseMoveVisit
      rw [habs]
    rw [this]
    exact ⟨habs, rfl, rfl, rfl, hwf⟩
  · obtain ⟨h1, h2, h3, h4, h5⟩ := mouseMoveVisit_preserves ext e k s hwf hk
    exact ⟨h1.trans habs, h2, h3, h4, h5⟩

theorem visits_preserve (ext : Externals) (e : Nat) (ks : List Nat) (s : ManagerState)
    (hwf : WF s) (hnotin : e ∉ ks) :
    mapGet (ks.foldl (mouseMoveVisit ext) s).elements e = mapGet s.elements e ∧
    firedCount (ks.foldl (mouseMoveVisit ext) s) e = firedCount s e ∧
    (ks.foldl (mouseMoveVisit ext) s).globalSettings = s.globalSettings ∧
    (ks.foldl (mouseMoveVisit ext) s).trajectoryPositions = s.trajectoryPositions ∧
    WF (ks.foldl (mouseMoveVisit ext) s) := by
  induction ks generalizing s with
  | nil => exact ⟨rfl, rfl, rfl, rfl, hwf⟩
  | cons k rest ih =>
    have hke : k ≠ e := fun hh => hnotin (hh ▸ List.mem_cons_self k rest)
    have hrest : e ∉ rest := fun hh => hnotin (List.mem_cons_of_mem k hh)
    obtain ⟨h1, h2, h3, h4, h5⟩ := mouseMoveVisit_preserves ext e k s hwf hke
    obtain ⟨g1, g2, g3, g4, g5⟩ := ih (mouseMoveVisit ext s k) h5 hrest
    exact ⟨g1.trans h1, g2.trans h2, g3.trans h3, g4.trans h4, g5⟩

theorem visits_absent (ext : Externals) (e : Nat) (ks : List Nat) (s : ManagerState)
    (hwf : WF s) (habs : mapGet s.elements e = none) :
    mapGet (ks.foldl (mouseMoveVisit ext) s).elements e = none ∧
    firedCount (ks.foldl (mouseMoveVisit ext) s) e = firedCount s e ∧
    WF (ks.foldl (mouseMoveVisit ext) s) := by
  induction ks generalizing s with
  | nil => exact ⟨habs, rfl, hwf⟩
  | cons k rest ih =>
    obtain ⟨h1, h2, h3, h4, h5⟩ := mouseMoveVisit_absent ext e k s hwf habs
    obtain ⟨g1, g2, g3⟩ := ih (mouseMoveVisit ext s k) h5 h1
    exact ⟨g1, g2.trans h2, g3⟩

/-- `e`'s own visit: fires exactly when visible and the hit test passes;
firing removes it, not firing leaves the state untouched. -/
theorem mouseMoveVisit_at_e (ext : Externals) (e : Nat) (s : ManagerState) (d : ElementData)
    (hwf : WF s) (hg : mapGet s.elements e = some d) :
    (d.isIntersectingWithViewport && mouseHitTest ext s d.elementBounds.expandedRect) = true →
      (firedCount (mouseMoveVisit ext s e) e = firedCount s e + 1 ∧
       mapGet (mouseMoveVisit ext s e).elements e = none ∧
       WF (mouseMoveVisit ext s e)) := by
  intro hcond
  have hd : d.element = e := hwf.element_of_get hg
  have hpres : mapHas s.elements d.element = true := by rw [hd]; simp [mapHas, hg]
  rw [Bool.and_eq_true] at hcond
  have hfacts : ∀ ht : HitType,
      firedCount (callCallback s (some d) ht) e = firedCount s e + 1 ∧
      mapGet (callCallback s (some d) ht).elements e = none ∧
      WF (callCallback s (some d) ht) := by
    intro ht
    obtain ⟨hw, hlog, hgone, -, -, -⟩ := callCallback_some s d ht hwf hpres
    refine ⟨?_, hd ▸ hgone, hw⟩
    unfold firedCount
    rw [hlog, count_append_singleton]
    simp [hd]
  have hvis := hcond.1
  have hhit := hcond.2
  unfold mouseHitTest at hhit
  have goal : firedCount (mouseMoveVisit ext s e) e = firedCount s e + 1 ∧
      mapGet (mouseMoveVisit ext s e).elements e = none ∧
      WF (mouseMoveVisit ext s e) := by
    unfold mouseMoveVisit
    rw [hg]
    simp only [hvis, not_true_eq_false, if_false]
    unfold handleCallbackInteraction
    by_cases hm : s.globalSettings.enableMousePrediction
    · rw [if_pos hm] at hhit
      simp only [hm, not_true_eq_false, if_false, hhit, if_true]
      exact hfacts _
    · rw [if_neg hm] at hhit
      simp only [hm, not_false_eq_true, if_true, hhit]
      exact hfacts _
  exact goal

theorem mouseMoveVisit_at_e_miss (ext : Externals) (e : Nat) (s : ManagerState)
    (d : ElementData) (hg : mapGet s.elements e = some d)
    (hcond : (d.isIntersectingWithViewport &&
      mouseHitTest ext s d.elementBounds.expandedRect) = false) :
    mouseMoveVisit ext s e = s := by
  unfold mouseMoveVisit
  rw [hg]
  rw [Bool.and_eq_false_iff] at hcond
  cases hcond with
  | inl hvis =>
    simp only [hvis, Bool.false_eq_true, not_false_eq_true, if_true]
  | inr hhit =>
    unfold mouseHitTest at hhit
    cases hvw : d.isIntersectingWithViewport with
    | false => simp only [hvw, Bool.false_eq_true, not_false_eq_true, if_true]
    | true =>
      simp only [hvw, not_true_eq_false, if_false]
      unfold handleCallbackInteraction
      by_cases hm : s.globalSettings.enableMousePrediction
      · rw [if_pos hm] at hhit
        simp [hm, hhit]
      · rw [if_neg hm] at hhit
        simp [hm, hhit]

theorem mouseHitTest_congr (ext : Externals) (a b : ManagerState) (r : Rect)
    (h1 : a.globalSettings = b.globalSettings)
    (h2 : a.trajectoryPositions = b.trajectoryPositions) :
    mouseHitTest ext a r = mouseHitTest ext b r := by
  unfold mouseHitTest
  rw [h1, h2]

/-- One mouse-move event fires a registered element exactly when it is
intersecting the viewport and its hit test passes, and removes it from the
registry the moment it fires — whatever else is registered. -/
theorem handleMouseMove_fires (ext : Externals) (s : ManagerState) (p : Point) (e : Nat)
    (d : ElementData) (hwf : WF s) (hg : mapGet s.elements e = some d) :
    firedCount (handleMouseMove ext s p) e = firedCount s e +
      (if (d.isIntersectingWithViewport &&
        mouseHitTest ext (updatePointerState s p) d.elementBounds.expandedRect) = true
       then 1 else 0) ∧
    ((d.isIntersectingWithViewport &&
        mouseHitTest ext (updatePointerState s p) d.elementBounds.expandedRect) = true →
      mapHas (handleMouseMove ext s p).elements e = false) := by
  have hg1 : mapGet (updatePointerState s p).elements e = some d := by
    rw [updatePointerState_elements]; exact hg
  have hwf1 : WF (updatePointerState s p) := by
    unfold WF; rw [updatePointerState_elements]; exact hwf
  have hcnt1 : firedCount (updatePointerState s p) e = firedCount s e := by
    unfold firedCount; rw [updatePointerState_firedLog]
  have hmem : e ∈ mapKeys (updatePointerState s p).elements := mem_keys_of_get hg1
  obtain ⟨l1, l2, hsplit⟩ := List.append_of_mem hmem
  have hnodup : (mapKeys (updatePointerState s p).elements).Nodup := hwf1.1
  rw [hsplit] at hnodup
  rw [List.nodup_append] at hnodup
  have hne1 : e ∉ l1 := fun hh => hnodup.2.2 hh (List.mem_cons_self e l2)
  have hne2 : e ∉ l2 := (List.nodup_cons.mp hnodup.2.1).1
  obtain ⟨q1, q2, q3, q4, q5⟩ :=
    visits_preserve ext e l1 (updatePointerState s p) hwf1 hne1
  have hgq : mapGet (l1.foldl (mouseMoveVisit ext) (updatePointerState s p)).elements e =
      some d := q1.trans hg1
  have hfold : (mapKeys (updatePointerState s p).elements).foldl (mouseMoveVisit ext)
      (updatePointerState s p) =
      l2.foldl (mouseMoveVisit ext)
        (mouseMoveVisit ext (l1.foldl (mouseMoveVisit ext) (updatePointerState s p)) e) := by
    rw [hsplit, List.foldl_append, List.foldl_cons]
  have hcongr : mouseHitTest ext (l1.foldl (mouseMoveVisit ext) (updatePointerState s p))
      d.elementBounds.expandedRect =
      mouseHitTest ext (updatePointerState s p) d.elementBounds.expandedRect :=
    mouseHitTest_congr ext _ _ _ q3 q4
  cases hcond : (d.isIntersectingWithViewport &&
      mouseHitTest ext (updatePointerState s p) d.elementBounds.expandedRect) with
  | true =>
    obtain ⟨f1, f2, f3⟩ := mouseMoveVisit_at_e ext e
      (l1.foldl (mouseMoveVisit ext) (updatePointerState s p)) d q5 hgq
      (by rw [Bool.and_eq_true]; rw [Bool.and_eq_true] at hcond
          exact ⟨hcond.1, hcongr.trans hcond.2⟩)
    obtain ⟨a1, a2, a3⟩ := visits_absent ext e l2 _ f3 f2
    constructor
    · show firedCount ((mapKeys (updatePointerState s p).elements).foldl
        (mouseMoveVisit ext) (updatePointerState s p)) e = firedCount s e +
        (if true = true then 1 else 0)
      rw [hfold, a2, f1, q2, hcnt1]
      simp
    · intro _
      show mapHas ((mapKeys (updatePointerState s p).elements).foldl
        (mouseMoveVisit ext) (updatePointerState s p)).elements e = false
      rw [hfold]
      simp [mapHas, a1]
  | false =>
    have hmiss : mouseMoveVisit ext (l1.foldl (mouseMoveVisit ext) (updatePointerState s p)) e =
        l1.foldl (mouseMoveVisit ext) (updatePointerState s p) :=
      mouseMoveVisit_at_e_miss ext e _ d hgq (by rw [hcongr]; exact hcond)
    obtain ⟨r1, r2, r3, r4, r5⟩ := visits_preserve ext e l2 _ q5 hne2
    constructor
    · show firedCount ((mapKeys (updatePointerState s p).elements).foldl
        (mouseMoveVisit ext) (updatePointerState s p)) e = firedCount s e +
        (if false = true then 1 else 0)
      rw [hfold, hmiss, r2, q2, hcnt1]
      simp
    · intro hc
      exact absurd hc (by decide)

/-
  Settings-layer lemmas: reading and writing individual keys.
-/

theorem getNumeric_setNumeric_self (gs : ForesightManagerSettings) (k : NumericSettingKeys)
    (v : Int) : getNumeric (setNumeric gs k v) k = v := by
  cases k <;> rfl

theorem getNumeric_setNumeric_ne (gs : ForesightManagerSettings) (k k' : NumericSettingKeys)
    (v : Int) (h : k' ≠ k) : getNumeric (setNumeric gs k v) k' = getNumeric gs k' := by
  cases k <;> cases k' <;> first
    | rfl
    | exact absurd rfl h

/-- C3: every numeric setting update with an out-of-range incoming value is
accepted (never rejected), and stores exactly the nearest bound of the
documented [min, max] range — never the raw value.  (The clamp helper and its
bound constants are modelled from the spec; the gate-then-clamp structure is
the source's `updateNumericSettings`.) -/
theorem C3_out_of_range_clamps (gs : ForesightManagerSettings) (k : NumericSettingKeys)
    (mn mx v : Int) (hrange : mn ≤ mx) (hlo : mn ≤ getNumeric gs k)
    (hhi : getNumeric gs k ≤ mx) (hout : v < mn ∨ mx < v) :
    (updateNumericSettings gs (some v) k mn mx).1 = true ∧
    getNumeric (updateNumericSettings gs (some v) k mn mx).2 k =
      (if v < mn then mn else mx) ∧
    getNumeric (updateNumericSettings gs (some v) k mn mx).2 k ≠ v := by
  have hne : v ≠ getNumeric gs k := by
    rcases hout with h | h <;> omega
  have hupd : updateNumericSettings gs (some v) k mn mx =
      (true, setNumeric gs k (clampNumber v mn mx)) := by
    unfold updateNumericSettings shouldUpdateSetting
    simp [hne]
  have hclamp : clampNumber v mn mx = (if v < mn then mn else mx) := by
    unfold clampNumber
    rcases hout with h | h
    · simp [h]
    · have h1 : ¬ v < mn := by omega
      have h2 : v > mx := by omega
      simp [h1, h2]
  rw [hupd]
  refine ⟨rfl, ?_, ?_⟩
  · simp only []
    rw [getNumeric_setNumeric_self, hclamp]
  · simp only []
    rw [getNumeric_setNumeric_self, hclamp]
    rcases hout with h | h
    · rw [if_pos h]; omega
    · rw [if_neg (by omega)]; omega

/-- Witness for C3: tab offset 2 stays clamped: an incoming 50 (documented max
20) is accepted and stores 20, not 50. -/
theorem C3_out_of_range_clamps_witness :
    ((MIN_TAB_OFFSET ≤ MAX_TAB_OFFSET ∧
      MIN_TAB_OFFSET ≤ getNumeric defaultSettings .tabOffset ∧
      getNumeric defaultSettings .tabOffset ≤ MAX_TAB_OFFSET ∧
      (50 < MIN_TAB_OFFSET ∨ MAX_TAB_OFFSET < 50)) ∧
     (updateNumericSettings defaultSettings (some 50) .tabOffset
        MIN_TAB_OFFSET MAX_TAB_OFFSET).1 = true ∧
     getNumeric (updateNumericSettings defaultSettings (some 50) .tabOffset
        MIN_TAB_OFFSET MAX_TAB_OFFSET).2 .tabOffset = 20) := by
  have h := C3_out_of_range_clamps defaultSettings .tabOffset MIN_TAB_OFFSET MAX_TAB_OFFSET 50
    (by decide) (by decide) (by decide) (by decide)
  exact ⟨⟨by decide, by decide, by decide, by decide⟩, h.1, by rw [h.2.1]; decide⟩

/-- C9: subscriber dispatch is exception-isolated.  `emitDispatch` is a total
function: it returns for every listener list (no exception propagates), the
manager state comes back untouched, and the outcome list pairs every
subscriber with its own outcome — a throwing listener contributes a logged
error entry without affecting the entry of any other subscriber, so every
remaining subscriber still receives the event. -/
theorem C9_emit_isolation {Ev Er : Type} (s : ManagerState)
    (listeners : List (Ev → Except Er Unit)) (event : Ev) :
    (emitDispatch s listeners event).1 = s ∧
    (emitDispatch s listeners event).2.length = listeners.length ∧
    (∀ i : Nat, (emitDispatch s listeners event).2.get? i =
      (listeners.get? i).map (fun listener =>
        match listener event with
        | .ok _ => none
        | .error err => some err)) := by
  refine ⟨rfl, ?_, ?_⟩
  · simp [emitDispatch]
  · intro i
    simp [emitDispatch, List.get?_map]

/-- Counterexample to C4: after the only element is unregistered the registry
is empty, yet the global `mousemove` input listener is still attached — the
source adds it without the shared AbortController signal (line 797), so the
teardown's `abort()` does not detach it. -/
theorem C4_counterexample :
    mapSize (unregister (register ⟨true, false, false⟩ initialState 1 0 none none).1 1
      UnregisterReason.apiCall).elements = 0 ∧
    (unregister (register ⟨true, false, false⟩ initialState 1 0 none none).1 1
      UnregisterReason.apiCall).listeners.mousemove = true := by
  decide

/-- C4 amended: the `keydown` and `focusin` listeners share the single
cancellation handle and are detached (with the observers) the moment the
registry becomes empty while set up; the `mousemove` listener is deliberately
attached without the handle and survives the teardown.  The first registration
on a torn-down manager attaches all three listeners and the handle. -/
theorem C4_amended :
    (∀ (s : ManagerState) (e : Nat) (r : UnregisterReason),
      mapHas s.elements e = true →
      mapSize (mapDelete s.elements e) = 0 →
      s.isSetup = true →
      (unregister s e r).isSetup = false ∧
      (unregister s e r).listeners.keydown = false ∧
      (unregister s e r).listeners.focusin = false ∧
      (unregister s e r).listeners.controllerActive = false ∧
      (unregister s e r).listeners.mousemove = s.listeners.mousemove) ∧
    (∀ (conds : RegistrationConditions) (s : ManagerState) (element callback : Nat)
      (hitSlop : Option Rect) (name : Option Nat),
      conds.shouldRegister = true → s.isSetup = false →
      (register conds s element callback hitSlop name).1.isSetup = true ∧
      (register conds s element callback hitSlop name).1.listeners.mousemove = true ∧
      (register conds s element callback hitSlop name).1.listeners.keydown = true ∧
      (register conds s element callback hitSlop name).1.listeners.focusin = true ∧
      (register conds s element callback hitSlop name).1.listeners.controllerActive = true) := by
  constructor
  · intro s e r hpres hsize hsetup
    simp [unregister, hpres, emitState, removeGlobalListeners, hsize, hsetup]
  · intro conds s element callback hitSlop name hcond hsetup
    simp [register, hcond, hsetup, setupGlobalListeners, emitState]

/-- Witness for the amended C4 at a concrete scenario: register then
unregister one element. -/
theorem C4_amended_witness :
    (unregister (register ⟨true, false, false⟩ initialState 2 0 none none).1 2
      UnregisterReason.apiCall).isSetup = false ∧
    (unregister (register ⟨true, false, false⟩ initialState 2 0 none none).1 2
      UnregisterReason.apiCall).listeners.keydown = false ∧
    (register ⟨true, false, false⟩ initialState 2 0 none none).1.listeners.mousemove = true := by
  have h1 := C4_amended.1 (register ⟨true, false, false⟩ initialState 2 0 none none).1 2
    UnregisterReason.apiCall (by decide) (by decide) (by decide)
  have h2 := C4_amended.2 ⟨true, false, false⟩ initialState 2 0 none none (by decide) (by decide)
  exact ⟨h1.1, h1.2.1, h2.2.1⟩

/-- Counterexample to C5: the registration options of this source version
carry no fire-once flag (`register` destructures only element, callback,
hitSlop, name), and a fired callback always unregisters: after one qualifying
mouse move the element is gone from the registry, and a second identical
qualifying event does not fire it again — no registration can be configured
to persist. -/
theorem C5_counterexample :
    mapHas (processEvents witnessExt
      (register ⟨true, false, false⟩ initialState 1 0 none none).1
      [InputEvent.mouseMove ⟨0, 0⟩]).elements 1 = false ∧
    firedCount (processEvents witnessExt
      (register ⟨true, false, false⟩ initialState 1 0 none none).1
      [InputEvent.mouseMove ⟨0, 0⟩, InputEvent.mouseMove ⟨0, 0⟩]) 1 = 1 := by
  decide

/-- C5 amended: `register` accepts no fire-once flag in this source version,
so every registration is fire-once: `callCallback` invokes the callback and
then unconditionally unregisters, leaving no record behind to fire again. -/
theorem C5_amended (s : ManagerState) (d : ElementData) (ht : HitType) (hwf : WF s)
    (hpres : mapHas s.elements d.element = true) :
    (callCallback s (some d) ht).firedLog = s.firedLog ++ [d.element] ∧
    mapHas (callCallback s (some d) ht).elements d.element = false := by
  obtain ⟨-, hlog, hgone, -, -, -⟩ := callCallback_some s d ht hwf hpres
  exact ⟨hlog, by simp [mapHas, hgone]⟩

/-- Witness for the amended C5: firing the freshly registered element's
callback removes it. -/
theorem C5_amended_witness :
    (callCallback (register ⟨true, false, false⟩ initialState 1 0 none none).1
      (some { element := 1, callback := 0, callbackHits := zeroHits,
              elementBounds := { originalRect := none, expandedRect := zeroRect,
                                 hitSlop := zeroRect },
              isHovering := false, name := none, isIntersectingWithViewport := true })
      (.mouse .hover)).firedLog = [1] ∧
    mapHas (callCallback (register ⟨true, false, false⟩ initialState 1 0 none none).1
      (some { element := 1, callback := 0, callbackHits := zeroHits,
              elementBounds := { originalRect := none, expandedRect := zeroRect,
                                 hitSlop := zeroRect },
              isHovering := false, name := none, isIntersectingWithViewport := true })
      (.mouse .hover)).elements 1 = false := by
  have h := C5_amended (register ⟨true, false, false⟩ initialState 1 0 none none).1
    { element := 1, callback := 0, callbackHits := zeroHits,
      elementBounds := { originalRect := none, expandedRect := zeroRect, hitSlop := zeroRect },
      isHovering := false, name := none, isIntersectingWithViewport := true }
    (.mouse .hover) (by decide) (by decide)
  exact ⟨h.1, h.2⟩

/-- C1: under the (only, hence default) fire-once behaviour of this code, an
element whose callback has not yet fired fires at most once over any stream of
input events, is absent from the registry from the moment the count reaches
one — i.e. immediately after the fire — and when the head event is a
qualifying mouse move for a registered, viewport-intersecting element, the
count over the whole stream (whatever further qualifying events follow) is
exactly one, with the element removed right after that first event. -/
theorem C1_fire_once (ext : Externals) (s : ManagerState) (e : Nat) (evs : List InputEvent)
    (hwf : WF s) (h0 : firedCount s e = 0) :
    (∀ n : Nat, firedCount (processEvents ext s (evs.take n)) e ≤ 1 ∧
      (1 ≤ firedCount (processEvents ext s (evs.take n)) e →
        mapHas (processEvents ext s (evs.take n)).elements e = false)) ∧
    (∀ (p : Point) (rest : List InputEvent) (d : ElementData),
      evs = InputEvent.mouseMove p :: rest →
      mapGet s.elements e = some d →
      (d.isIntersectingWithViewport &&
        mouseHitTest ext (updatePointerState s p) d.elementBounds.expandedRect) = true →
      firedCount (processEvents ext s evs) e = 1 ∧
      mapHas (step ext s (InputEvent.mouseMove p)).elements e = false) := by
  have hpart1 : ∀ evs' : List InputEvent,
      firedCount (processEvents ext s evs') e ≤ 1 ∧
      (1 ≤ firedCount (processEvents ext s evs') e →
        mapHas (processEvents ext s evs').elements e = false) := by
    intro evs'
    obtain ⟨-, hpot, -⟩ := tracks_processEvents ext e evs' s hwf
    have hpot' : potential (processEvents ext s evs') e ≤ potential s e := hpot
    have hstart : potential s e ≤ 1 := by
      unfold potential
      rw [h0]
      split <;> omega
    have hle := hpot'.trans hstart
    unfold potential at hle
    constructor
    · omega
    · intro h1
      by_cases hb : mapHas (processEvents ext s evs').elements e = true
      · rw [hb] at hle
        simp at hle
        exact absurd h1 (by omega)
      · simpa using hb
  constructor
  · intro n
    exact ⟨(hpart1 (evs.take n)).1, (hpart1 (evs.take n)).2⟩
  · intro p rest d hevs hg hcond
    have hstep := handleMouseMove_fires ext s p e d hwf hg
    have hcount1 : firedCount (step ext s (InputEvent.mouseMove p)) e = 1 := by
      show firedCount (handleMouseMove ext s p) e = 1
      rw [hstep.1, hcond, h0]
      simp
    have hgone := hstep.2 hcond
    refine ⟨?_, hgone⟩
    have hwf1 : WF (step ext s (InputEvent.mouseMove p)) :=
      (tracks_step ext e (InputEvent.mouseMove p) s hwf).1
    obtain ⟨-, -, hmono⟩ := tracks_processEvents ext e rest
      (step ext s (InputEvent.mouseMove p)) hwf1
    have hrun : processEvents ext s evs =
        processEvents ext (step ext s (InputEvent.mouseMove p)) rest := by
      rw [hevs]
      rfl
    have hge : 1 ≤ firedCount (processEvents ext s evs) e := by
      rw [hrun, ← hcount1]
      exact hmono
    have hle : firedCount (processEvents ext s evs) e ≤ 1 := by
      have := (hpart1 evs).1
      exact this
    omega

/-- Witness for C1: one registered element, two identical qualifying mouse
moves — the callback fires exactly once and the element is gone right after
the first event. -/
theorem C1_fire_once_witness :
    firedCount (processEvents witnessExt
      (register ⟨true, false, false⟩ initialState 1 0 none none).1
      [InputEvent.mouseMove ⟨0, 0⟩, InputEvent.mouseMove ⟨0, 0⟩]) 1 = 1 ∧
    mapHas (step witnessExt (register ⟨true, false, false⟩ initialState 1 0 none none).1
      (InputEvent.mouseMove ⟨0, 0⟩)).elements 1 = false := by
  have h := C1_fire_once witnessExt
    (register ⟨true, false, false⟩ initialState 1 0 none none).1 1
    [InputEvent.mouseMove ⟨0, 0⟩, InputEvent.mouseMove ⟨0, 0⟩]
    (by decide) (by decide)
  exact h.2 ⟨0, 0⟩ [InputEvent.mouseMove ⟨0, 0⟩]
    { element := 1, callback := 0, callbackHits := zeroHits,
      elementBounds := { originalRect := none, expandedRect := zeroRect, hitSlop := zeroRect },
      isHovering := false, name := none, isIntersectingWithViewport := true }
    rfl (by decide) (by decide)

theorem setupGlobalListeners_elements (s : ManagerState) :
    (setupGlobalListeners s).elements = s.elements := by
  unfold setupGlobalListeners; split <;> rfl

/-- C10: a successful `register` stores a record with
`isIntersectingWithViewport` already true, no original rect, and the zero
rectangle as expanded rect; consequently every mouse-move event before the
first position-observer update does not skip the element but hit-tests it
against that degenerate zero rectangle. -/
theorem C10_fresh_record_zero_rect (ext : Externals) (conds : RegistrationConditions)
    (s : ManagerState) (element callback : Nat) (hitSlop : Option Rect) (name : Option Nat)
    (hwf : WF s) (hcond : conds.shouldRegister = true) :
    (register conds s element callback hitSlop name).2.isRegistered = true ∧
    ∃ d : ElementData,
      mapGet (register conds s element callback hitSlop name).1.elements element = some d ∧
      d.isIntersectingWithViewport = true ∧
      d.elementBounds.originalRect = none ∧
      d.elementBounds.expandedRect = zeroRect ∧
      ∀ p : Point,
        firedCount (handleMouseMove ext (register conds s element callback hitSlop name).1 p)
          element =
        firedCount (register conds s element callback hitSlop name).1 element +
          (if mouseHitTest ext
              (updatePointerState (register conds s element callback hitSlop name).1 p)
              zeroRect = true then 1 else 0) := by
  unfold register
  rw [hcond]
  cases hsetup : s.isSetup with
  | true =>
    refine ⟨rfl, ?_⟩
    refine ⟨registerData s element callback hitSlop name,
      mapGet_mapSet_self _ _ _, rfl, rfl, rfl, ?_⟩
    intro p
    exact
      let d0 := registerData s element callback hitSlop name
      let s2 : ManagerState := { s with elements := mapSet s.elements element d0 }
      (handleMouseMove_fires ext (emitState s2 (.elementRegistered element)) p element d0
        (MapWF.mapSet hwf rfl) (mapGet_mapSet_self _ _ _)).1
  | false =>
    have hwf1 : WF (setupGlobalListeners s) := by
      unfold WF
      rw [setupGlobalListeners_elements]
      exact hwf
    refine ⟨rfl, ?_⟩
    refine ⟨registerData (setupGlobalListeners s) element callback hitSlop name,
      mapGet_mapSet_self _ _ _, rfl, rfl, rfl, ?_⟩
    intro p
    exact
      let d0 := registerData (setupGlobalListeners s) element callback hitSlop name
      let s2 : ManagerState :=
        { setupGlobalListeners s with
          elements := mapSet (setupGlobalListeners s).elements element d0 }
      (handleMouseMove_fires ext (emitState s2 (.elementRegistered element)) p element d0
        (MapWF.mapSet hwf1 rfl) (mapGet_mapSet_self _ _ _)).1

/-- Witness for C10 at a concrete registration: the fresh record has the
degenerate bounds, and a mouse move is hit-tested against the zero rect
(firing under an always-true segment test). -/
theorem C10_fresh_record_zero_rect_witness :
    (register ⟨true, false, false⟩ initialState 3 0 none none).2.isRegistered = true ∧
    mapGet (register ⟨true, false, false⟩ initialState 3 0 none none).1.elements 3 =
      some { element := 3, callback := 0, callbackHits := zeroHits,
             elementBounds := { originalRect := none, expandedRect := zeroRect,
                                hitSlop := zeroRect },
             isHovering := false, name := none, isIntersectingWithViewport := true } ∧
    firedCount (handleMouseMove witnessExt
      (register ⟨true, false, false⟩ initialState 3 0 none none).1 ⟨5, 5⟩) 3 = 1 := by
  have h := C10_fresh_record_zero_rect witnessExt ⟨true, false, false⟩ initialState 3 0
    none none (by decide) (by decide)
  refine ⟨h.1, by decide, ?_⟩
  obtain ⟨d, hget, -, -, -, hfire⟩ := h.2
  rw [hfire ⟨5, 5⟩]
  decide

/-
  Field preservation: no input-event handler ever writes the global settings,
  and only the pointer-state update writes the trajectory state.
-/

theorem unregister_fields (s : ManagerState) (e : Nat) (r : UnregisterReason) :
    (unregister s e r).globalSettings = s.globalSettings ∧
    (unregister s e r).trajectoryPositions = s.trajectoryPositions := by
  unfold unregister
  dsimp only
  split
  · exact ⟨rfl, rfl⟩
  · split
    · exact ⟨rfl, rfl⟩
    · exact ⟨rfl, rfl⟩

theorem callCallback_fields (s : ManagerState) (data : Option ElementData) (ht : HitType) :
    (callCallback s data ht).globalSettings = s.globalSettings ∧
    (callCallback s data ht).trajectoryPositions = s.trajectoryPositions := by
  cases data with
  | none => exact ⟨rfl, rfl⟩
  | some d =>
    unfold callCallback
    dsimp only
    constructor
    · exact (unregister_fields _ _ _).1
    · exact (unregister_fields _ _ _).2

theorem callCallback_gs (s : ManagerState) (data : Option ElementData) (ht : HitType) :
    (callCallback s data ht).globalSettings = s.globalSettings :=
  (callCallback_fields s data ht).1

theorem callCallback_tp (s : ManagerState) (data : Option ElementData) (ht : HitType) :
    (callCallback s data ht).trajectoryPositions = s.trajectoryPositions :=
  (callCallback_fields s data ht).2

/-- The possible-fire-then-emit tail of the scroll-prediction branch leaves
settings and trajectory untouched. -/
theorem prefetch_tail_fields (s2 : ManagerState) (d : ElementData) (axis : ScrollAxis)
    (c : Bool) :
    (emitState (if c then callCallback s2 (some d) (.scroll axis) else s2)
      .scrollTrajectoryUpdate).globalSettings = s2.globalSettings ∧
    (emitState (if c then callCallback s2 (some d) (.scroll axis) else s2)
      .scrollTrajectoryUpdate).trajectoryPositions = s2.trajectoryPositions := by
  cases c with
  | false => exact ⟨rfl, rfl⟩
  | true =>
    constructor
    · exact callCallback_gs s2 (some d) (.scroll axis)
    · exact callCallback_tp s2 (some d) (.scroll axis)

theorem scrollPrefetch_fields (ext : Externals) (s : ManagerState) (d : ElementData)
    (newRect : Rect) :
    (handleScrollPrefetch ext s d newRect).globalSettings = s.globalSettings ∧
    (handleScrollPrefetch ext s d newRect).trajectoryPositions = s.trajectoryPositions := by
  unfold handleScrollPrefetch
  by_cases hsp : s.globalSettings.enableScrollPrediction
  · simp only [hsp, if_true]
    cases ho : d.elementBounds.originalRect with
    | none => exact ⟨rfl, rfl⟩
    | some oldRect =>
      dsimp only
      cases hsd : s.scrollDirection with
      | some dv =>
        dsimp only
        cases dv with
        | none => exact ⟨rfl, rfl⟩
        | some axis =>
          dsimp only
          cases hpp : s.predictedScrollPoint with
          | some pt =>
            exact ⟨(prefetch_tail_fields _ d axis _).1, (prefetch_tail_fields _ d axis _).2⟩
          | none =>
            exact ⟨(prefetch_tail_fields _ d axis _).1, (prefetch_tail_fields _ d axis _).2⟩
      | none =>
        dsimp only
        cases hgd : ext.getScrollDirection oldRect newRect with
        | none => exact ⟨rfl, rfl⟩
        | some axis =>
          dsimp only
          cases hpp : s.predictedScrollPoint with
          | some pt =>
            exact ⟨(prefetch_tail_fields _ d axis _).1, (prefetch_tail_fields _ d axis _).2⟩
          | none =>
            exact ⟨(prefetch_tail_fields _ d axis _).1, (prefetch_tail_fields _ d axis _).2⟩
  · simp only [hsp, if_false]
    by_cases hit : ext.isPointInRectangle s.trajectoryPositions.currentPoint
        d.elementBounds.expandedRect
    · simp only [hit, if_true]
      constructor
      · exact callCallback_gs s (some d) (.mouse .hover)
      · exact callCallback_tp s (some d) (.mouse .hover)
    · simp only [hit, if_false]
      exact ⟨rfl, rfl⟩

theorem mouseMoveVisit_fields (ext : Externals) (s : ManagerState) (k : Nat) :
    (mouseMoveVisit ext s k).globalSettings = s.globalSettings ∧
    (mouseMoveVisit ext s k).trajectoryPositions = s.trajectoryPositions := by
  unfold mouseMoveVisit
  cases hg : mapGet s.elements k with
  | none => exact ⟨rfl, rfl⟩
  | some d =>
    cases hvw : d.isIntersectingWithViewport with
    | false =>
      simp only [hvw, Bool.false_eq_true, not_false_eq_true, if_true]
      refine ⟨?_, ?_⟩ <;> trivial
    | true =>
      simp only [hvw, not_true_eq_false, if_false]
      unfold handleCallbackInteraction
      by_cases hm : s.globalSettings.enableMousePrediction
      · simp only [hm, not_true_eq_false, if_false]
        by_cases hit : ext.lineSegmentIntersectsRect s.trajectoryPositions.currentPoint
            s.trajectoryPositions.predictedPoint d.elementBounds.expandedRect
        · simp only [hit, if_true]
          constructor
          · exact callCallback_gs s (some d) (.mouse .trajectory)
          · exact callCallback_tp s (some d) (.mouse .trajectory)
        · simp only [hit, if_false]
          exact ⟨rfl, rfl⟩
      · simp only [hm, not_false_eq_true, if_true]
        by_cases hit : ext.isPointInRectangle s.trajectoryPositions.currentPoint
            d.elementBounds.expandedRect
        · simp only [hit, if_true]
          constructor
          · exact callCallback_gs s (some d) (.mouse .hover)
          · exact callCallback_tp s (some d) (.mouse .hover)
        · simp only [hit, if_false]
          exact ⟨rfl, rfl⟩

theorem posVisit_fields (ext : Externals) (s : ManagerState) (entry : PosEntry) :
    (posVisit ext s entry).globalSettings = s.globalSettings ∧
    (posVisit ext s entry).trajectoryPositions = s.trajectoryPositions := by
  unfold posVisit
  cases hg : mapGet s.elements entry.target with
  | none => exact ⟨rfl, rfl⟩
  | some d =>
    simp only []
    cases hni : entry.isIntersecting with
    | true =>
      cases hvw : d.isIntersectingWithViewport with
      | true =>
        exact ⟨(scrollPrefetch_fields _ _ _ _).1, (scrollPrefetch_fields _ _ _ _).2⟩
      | false =>
        exact ⟨(scrollPrefetch_fields _ _ _ _).1, (scrollPrefetch_fields _ _ _ _).2⟩
    | false =>
      cases hvw : d.isIntersectingWithViewport with
      | true => exact ⟨rfl, rfl⟩
      | false => exact ⟨rfl, rfl⟩

theorem foldl_fields {α : Type} (f : ManagerState → α → ManagerState)
    (h : ∀ t a, (f t a).globalSettings = t.globalSettings ∧
      (f t a).trajectoryPositions = t.trajectoryPositions) :
    ∀ (l : List α) (t : ManagerState),
      (l.foldl f t).globalSettings = t.globalSettings ∧
      (l.foldl f t).trajectoryPositions = t.trajectoryPositions := by
  intro l
  induction l with
  | nil => exact fun t => ⟨rfl, rfl⟩
  | cons a rest ih =>
    intro t
    exact ⟨(ih (f t a)).1.trans (h t a).1, (ih (f t a)).2.trans (h t a).2⟩

theorem refetchFire_fields (el : Nat) (ht : HitType) (t : ManagerState) :
    (callCallback t (mapGet t.elements el) ht).globalSettings = t.globalSettings ∧
    (callCallback t (mapGet t.elements el) ht).trajectoryPositions = t.trajectoryPositions :=
  ⟨(callCallback_fields _ _ _).1, (callCallback_fields _ _ _).2⟩

/-- Every input-event handler leaves the global settings untouched, and every
handler except the pointer-state update leaves the trajectory state untouched. -/
theorem step_fields (ext : Externals) (s : ManagerState) (ev : InputEvent) :
    (step ext s ev).globalSettings = s.globalSettings ∧
    (∀ shift, ev = InputEvent.tabKeyDown shift →
      (step ext s ev).trajectoryPositions = s.trajectoryPositions) ∧
    (∀ target, ev = InputEvent.focusIn target →
      (step ext s ev).trajectoryPositions = s.trajectoryPositions) ∧
    (∀ entries, ev = InputEvent.positionChange entries →
      (step ext s ev).trajectoryPositions = s.trajectoryPositions) := by
  cases ev with
  | mouseMove p =>
    refine ⟨?_, ?_, ?_, ?_⟩
    · show (emitState ((mapKeys (updatePointerState s p).elements).foldl
        (mouseMoveVisit ext) (updatePointerState s p)) .mouseTrajectoryUpdate).globalSettings =
        s.globalSettings
      have h1 := (foldl_fields (mouseMoveVisit ext) (fun t k => mouseMoveVisit_fields ext t k)
        (mapKeys (updatePointerState s p).elements) (updatePointerState s p)).1
      exact h1.trans (updatePointerState_globalSettings s p)
    · intro shift h; cases h
    · intro target h; cases h
    · intro entries h; cases h
  | tabKeyDown shift =>
    refine ⟨rfl, ?_, ?_, ?_⟩
    · intro shift' h; exact rfl
    · intro target h; cases h
    · intro entries h; cases h
  | focusIn target =>
    have key : (handleFocusIn ext s target).globalSettings = s.globalSettings ∧
        (handleFocusIn ext s target).trajectoryPositions = s.trajectoryPositions := by
      unfold handleFocusIn
      cases hkd : s.lastKeyDown with
      | none => exact ⟨rfl, rfl⟩
      | some isReversed =>
        cases htp : s.globalSettings.enableTabPrediction with
        | false => exact ⟨rfl, rfl⟩
        | true =>
          simp only [not_true_eq_false, if_false]
          constructor
          · exact (foldl_fields _ (fun t el => refetchFire_fields el _ t) _ _).1
          · exact (foldl_fields _ (fun t el => refetchFire_fields el _ t) _ _).2
    refine ⟨key.1, ?_, ?_, ?_⟩
    · intro shift h; cases h
    · intro target' h; exact key.2
    · intro entries h; cases h
  | positionChange entries =>
    have key : (handlePositionChange ext s entries).globalSettings = s.globalSettings ∧
        (handlePositionChange ext s entries).trajectoryPositions = s.trajectoryPositions := by
      constructor
      · exact (foldl_fields _ (fun t en => posVisit_fields ext t en) entries s).1
      · exact (foldl_fields _ (fun t en => posVisit_fields ext t en) entries s).2
    refine ⟨key.1, ?_, ?_, ?_⟩
    · intro shift h; cases h
    · intro target h; cases h
    · intro entries' h; exact key.2

/-
  The bounded-history invariant (C6).
-/

theorem keepLast_length {α : Type} (n : Nat) (l : List α) : (keepLast n l).length ≤ n := by
  unfold keepLast
  rw [List.length_drop]
  omega

theorem updatePointerState_histInv (s : ManagerState) (p : Point) (h : HistInv s) :
    HistInv (updatePointerState s p) := by
  unfold updatePointerState
  split
  · show (keepLast s.globalSettings.positionHistorySize.toNat
      (s.trajectoryPositions.positions ++ [p])).length ≤
      s.globalSettings.positionHistorySize.toNat
    exact keepLast_length _ _
  · exact h

theorem step_histInv (ext : Externals) (s : ManagerState) (ev : InputEvent)
    (h : HistInv s) : HistInv (step ext s ev) := by
  cases ev with
  | mouseMove p =>
    have h1 := updatePointerState_histInv s p h
    have h2 := foldl_fields (mouseMoveVisit ext) (fun t k => mouseMoveVisit_fields ext t k)
      (mapKeys (updatePointerState s p).elements) (updatePointerState s p)
    show ((mapKeys (updatePointerState s p).elements).foldl (mouseMoveVisit ext)
        (updatePointerState s p)).trajectoryPositions.positions.length ≤
      ((mapKeys (updatePointerState s p).elements).foldl (mouseMoveVisit ext)
        (updatePointerState s p)).globalSettings.positionHistorySize.toNat
    rw [h2.1, h2.2]
    exact h1
  | tabKeyDown shift =>
    have hh := step_fields ext s (.tabKeyDown shift)
    unfold HistInv
    rw [hh.2.1 shift rfl, hh.1]
    exact h
  | focusIn target =>
    have hh := step_fields ext s (.focusIn target)
    unfold HistInv
    rw [hh.2.2.1 target rfl, hh.1]
    exact h
  | positionChange entries =>
    have hh := step_fields ext s (.positionChange entries)
    unfold HistInv
    rw [hh.2.2.2 entries rfl, hh.1]
    exact h

theorem updNum_main_cases (gs : ForesightManagerSettings) (nv : Option Int)
    (k : NumericSettingKeys) (mn mx : Int) :
    updateNumericSettings gs nv k mn mx = (false, gs) ∨
    (∃ v, nv = some v ∧ v ≠ getNumeric gs k ∧
      updateNumericSettings gs nv k mn mx = (true, setNumeric gs k (clampNumber v mn mx))) := by
  cases nv with
  | none => exact Or.inl rfl
  | some v =>
    by_cases hv : v = getNumeric gs k
    · left
      unfold updateNumericSettings shouldUpdateSetting
      simp [hv]
    · right
      refine ⟨v, rfl, hv, ?_⟩
      unfold updateNumericSettings shouldUpdateSetting
      simp [hv]

theorem updNum_traj_phs (gs : ForesightManagerSettings) (nv : Option Int) (mn mx : Int) :
    (updateNumericSettings gs nv .trajectoryPredictionTime mn mx).2.positionHistorySize =
      gs.positionHistorySize := by
  rcases updNum_main_cases gs nv .trajectoryPredictionTime mn mx with h | ⟨v, -, -, h⟩ <;>
    rw [h] <;> rfl

theorem updNum_scroll_phs (gs : ForesightManagerSettings) (nv : Option Int) (mn mx : Int) :
    (updateNumericSettings gs nv .scrollMargin mn mx).2.positionHistorySize =
      gs.positionHistorySize := by
  rcases updNum_main_cases gs nv .scrollMargin mn mx with h | ⟨v, -, -, h⟩ <;>
    rw [h] <;> rfl

theorem updNum_tab_phs (gs : ForesightManagerSettings) (nv : Option Int) (mn mx : Int) :
    (updateNumericSettings gs nv .tabOffset mn mx).2.positionHistorySize =
      gs.positionHistorySize := by
  rcases updNum_main_cases gs nv .tabOffset mn mx with h | ⟨v, -, -, h⟩ <;>
    rw [h] <;> rfl

theorem updBool_main_cases (gs : ForesightManagerSettings) (nv : Option Bool)
    (k : BooleanSettingKeys) :
    (updateBooleanSetting gs nv k).2 = gs ∨
    (∃ v, (updateBooleanSetting gs nv k).2 = setBoolean gs k v) := by
  cases nv with
  | none => exact Or.inl rfl
  | some v =>
    by_cases hv : v = getBoolean gs k
    · left
      unfold updateBooleanSetting shouldUpdateSetting
      simp [hv]
    · right
      refine ⟨v, ?_⟩
      unfold updateBooleanSetting shouldUpdateSetting
      simp [hv]

theorem updBool_phs (gs : ForesightManagerSettings) (nv : Option Bool)
    (k : BooleanSettingKeys) :
    (updateBooleanSetting gs nv k).2.positionHistorySize = gs.positionHistorySize := by
  rcases updBool_main_cases gs nv k with h | ⟨v, h⟩ <;> rw [h]
  · cases k <;> rfl

/-- The final stored `positionHistorySize` of `alterGlobalSettings` is the one
the dedicated numeric update produced: no later stage writes it. -/
theorem alter_phs (dom : Nat → Rect) (s : ManagerState) (props : UpdateProps) :
    (alterGlobalSettings dom s props).globalSettings.positionHistorySize =
    (updateNumericSettings s.globalSettings props.positionHistorySize .positionHistorySize
      MIN_POSITION_HISTORY_SIZE MAX_POSITION_HISTORY_SIZE).2.positionHistorySize := by
  unfold alterGlobalSettings
  dsimp only
  cases hhs : props.defaultHitSlop with
  | none =>
    dsimp only
    cases hhook : props.onAnyCallbackFired with
    | none =>
      dsimp only
      rw [updBool_phs, updBool_phs, updBool_phs, updNum_tab_phs, updNum_scroll_phs,
        updNum_traj_phs]
    | some hook =>
      dsimp only
      rw [show ∀ gs : ForesightManagerSettings, ∀ h : Nat,
          ({ gs with onAnyCallbackFired := h } : ForesightManagerSettings).positionHistorySize =
          gs.positionHistorySize from fun _ _ => rfl]
      rw [updBool_phs, updBool_phs, updBool_phs, updNum_tab_phs, updNum_scroll_phs,
        updNum_traj_phs]
  | some hs =>
    dsimp only
    split
    · dsimp only
      cases hhook : props.onAnyCallbackFired with
      | none =>
        dsimp only
        rw [updBool_phs, updBool_phs, updBool_phs, updNum_tab_phs, updNum_scroll_phs,
          updNum_traj_phs]
      | some hook =>
        dsimp only
        rw [show ∀ gs : ForesightManagerSettings, ∀ h : Nat,
            ({ gs with onAnyCallbackFired := h } : ForesightManagerSettings).positionHistorySize =
            gs.positionHistorySize from fun _ _ => rfl]
        rw [updBool_phs, updBool_phs, updBool_phs, updNum_tab_phs, updNum_scroll_phs,
          updNum_traj_phs]
    · dsimp only
      cases hhook : props.onAnyCallbackFired with
      | none =>
        dsimp only
        rw [updBool_phs, updBool_phs, updBool_phs, updNum_tab_phs, updNum_scroll_phs,
          updNum_traj_phs]
      | some hook =>
        dsimp only
        rw [show ∀ gs : ForesightManagerSettings, ∀ h : Nat,
            ({ gs with onAnyCallbackFired := h } : ForesightManagerSettings).positionHistorySize =
            gs.positionHistorySize from fun _ _ => rfl]
        rw [updBool_phs, updBool_phs, updBool_phs, updNum_tab_phs, updNum_scroll_phs,
          updNum_traj_phs]

/-- The position history `alterGlobalSettings` leaves behind: truncated to the
new size exactly when the dedicated update changed it downwards and the
history was longer. -/
theorem alter_traj_eq (dom : Nat → Rect) (s : ManagerState) (props : UpdateProps) :
    (alterGlobalSettings dom s props).trajectoryPositions.positions =
    (if (updateNumericSettings s.globalSettings props.positionHistorySize .positionHistorySize
          MIN_POSITION_HISTORY_SIZE MAX_POSITION_HISTORY_SIZE).1 = true ∧
        (updateNumericSettings s.globalSettings props.positionHistorySize .positionHistorySize
          MIN_POSITION_HISTORY_SIZE MAX_POSITION_HISTORY_SIZE).2.positionHistorySize <
          s.globalSettings.positionHistorySize ∧
        (s.trajectoryPositions.positions.length : Int) >
          (updateNumericSettings s.globalSettings props.positionHistorySize .positionHistorySize
            MIN_POSITION_HISTORY_SIZE MAX_POSITION_HISTORY_SIZE).2.positionHistorySize
     then s.trajectoryPositions.positions.drop
        ((s.trajectoryPositions.positions.length : Int) -
          (updateNumericSettings s.globalSettings props.positionHistorySize .positionHistorySize
            MIN_POSITION_HISTORY_SIZE MAX_POSITION_HISTORY_SIZE).2.positionHistorySize).toNat
     else s.trajectoryPositions.positions) := by
  unfold alterGlobalSettings
  dsimp only
  by_cases h1 : (updateNumericSettings s.globalSettings props.positionHistorySize
        .positionHistorySize MIN_POSITION_HISTORY_SIZE MAX_POSITION_HISTORY_SIZE).1 = true ∧
      (updateNumericSettings s.globalSettings props.positionHistorySize .positionHistorySize
        MIN_POSITION_HISTORY_SIZE MAX_POSITION_HISTORY_SIZE).2.positionHistorySize <
        s.globalSettings.positionHistorySize
  · rw [if_pos h1]
    by_cases h2 : (s.trajectoryPositions.positions.length : Int) >
        (updateNumericSettings s.globalSettings props.positionHistorySize .positionHistorySize
          MIN_POSITION_HISTORY_SIZE MAX_POSITION_HISTORY_SIZE).2.positionHistorySize
    · rw [if_pos h2, if_pos ⟨h1.1, h1.2, h2⟩]
    · rw [if_neg h2, if_neg (fun hc => h2 hc.2.2)]
  · rw [if_neg h1, if_neg (fun hc => h1 ⟨hc.1, hc.2.1⟩)]

theorem clampNumber_bounds (v mn mx : Int) (h : mn ≤ mx) :
    mn ≤ clampNumber v mn mx ∧ clampNumber v mn mx ≤ mx := by
  unfold clampNumber
  split
  · omega
  · split <;> omega

/-- C6: (1) every input-event handler preserves the bounded-history invariant
(the pointer-state update evicts the oldest entries down to the configured
size, nothing else grows the history); (2) so does every settings update; and
(3) a settings update that actually reduces `positionHistorySize` immediately
truncates the history to the new (clamped) size, keeping the most recent
positions (`keepLast`). -/
theorem C6_history_never_exceeds :
    (∀ (ext : Externals) (s : ManagerState) (ev : InputEvent),
      HistInv s → HistInv (step ext s ev)) ∧
    (∀ (dom : Nat → Rect) (s : ManagerState) (props : UpdateProps),
      HistInv s → HistInv (alterGlobalSettings dom s props)) ∧
    (∀ (dom : Nat → Rect) (s : ManagerState) (props : UpdateProps) (v : Int),
      props.positionHistorySize = some v →
      v ≠ s.globalSettings.positionHistorySize →
      clampNumber v MIN_POSITION_HISTORY_SIZE MAX_POSITION_HISTORY_SIZE <
        s.globalSettings.positionHistorySize →
      (alterGlobalSettings dom s props).trajectoryPositions.positions =
        keepLast (clampNumber v MIN_POSITION_HISTORY_SIZE MAX_POSITION_HISTORY_SIZE).toNat
          s.trajectoryPositions.positions) := by
  refine ⟨step_histInv, ?_, ?_⟩
  · intro dom s props h
    unfold HistInv at h ⊢
    rw [alter_traj_eq, alter_phs]
    rcases updNum_main_cases s.globalSettings props.positionHistorySize .positionHistorySize
        MIN_POSITION_HISTORY_SIZE MAX_POSITION_HISTORY_SIZE with hc | ⟨v, hv, hne, hc⟩
    · rw [hc]
      simp only [Prod.fst, Prod.snd]
      rw [if_neg (by simp)]
      exact h
    · rw [hc]
      dsimp only
      have hclamp := clampNumber_bounds v MIN_POSITION_HISTORY_SIZE
        MAX_POSITION_HISTORY_SIZE (by decide)
      have hmin : MIN_POSITION_HISTORY_SIZE = (0 : Int) := rfl
      have hseteq : (setNumeric s.globalSettings NumericSettingKeys.positionHistorySize
          (clampNumber v MIN_POSITION_HISTORY_SIZE
            MAX_POSITION_HISTORY_SIZE)).positionHistorySize =
          clampNumber v MIN_POSITION_HISTORY_SIZE MAX_POSITION_HISTORY_SIZE := rfl
      have hgeteq : getNumeric s.globalSettings NumericSettingKeys.positionHistorySize =
          s.globalSettings.positionHistorySize := rfl
      by_cases hlt : clampNumber v MIN_POSITION_HISTORY_SIZE MAX_POSITION_HISTORY_SIZE <
          s.globalSettings.positionHistorySize
      · by_cases hlen : (s.trajectoryPositions.positions.length : Int) >
            clampNumber v MIN_POSITION_HISTORY_SIZE MAX_POSITION_HISTORY_SIZE
        · rw [if_pos ⟨by trivial, hlt, hlen⟩]
          rw [List.length_drop]
          omega
        · rw [if_neg (fun hcc => hlen hcc.2.2)]
          omega
      · rw [if_neg (fun hcc => hlt hcc.2.1)]
        omega
  · intro dom s props v hv hne hlt
    have hupd : updateNumericSettings s.globalSettings props.positionHistorySize
        .positionHistorySize MIN_POSITION_HISTORY_SIZE MAX_POSITION_HISTORY_SIZE =
        (true, setNumeric s.globalSettings .positionHistorySize
          (clampNumber v MIN_POSITION_HISTORY_SIZE MAX_POSITION_HISTORY_SIZE)) := by
      rw [hv]
      unfold updateNumericSettings shouldUpdateSetting
      simp [show v ≠ getNumeric s.globalSettings .positionHistorySize from hne]
    rw [alter_traj_eq, hupd]
    dsimp only
    have hclamp := clampNumber_bounds v MIN_POSITION_HISTORY_SIZE
      MAX_POSITION_HISTORY_SIZE (by decide)
    have hmin : MIN_POSITION_HISTORY_SIZE = (0 : Int) := rfl
    have hseteq : (setNumeric s.globalSettings NumericSettingKeys.positionHistorySize
        (clampNumber v MIN_POSITION_HISTORY_SIZE
          MAX_POSITION_HISTORY_SIZE)).positionHistorySize =
        clampNumber v MIN_POSITION_HISTORY_SIZE MAX_POSITION_HISTORY_SIZE := rfl
    have hgeteq : getNumeric s.globalSettings NumericSettingKeys.positionHistorySize =
        s.globalSettings.positionHistorySize := rfl
    by_cases hlen : (s.trajectoryPositions.positions.length : Int) >
        clampNumber v MIN_POSITION_HISTORY_SIZE MAX_POSITION_HISTORY_SIZE
    · rw [if_pos ⟨by trivial, hlt, hlen⟩]
      unfold keepLast
      congr 1
      omega
    · rw [if_neg (fun hcc => hlen hcc.2.2)]
      unfold keepLast
      rw [show s.trajectoryPositions.positions.length -
          (clampNumber v MIN_POSITION_HISTORY_SIZE MAX_POSITION_HISTORY_SIZE).toNat = 0 by
        omega]
      rw [List.drop_zero]

/-- Witness for C6: three pointer moves build a three-entry history; a
settings update shrinking the size to 2 truncates it to the two most recent
positions. -/
theorem C6_history_never_exceeds_witness :
    HistInv (processEvents witnessExt initialState
      [InputEvent.mouseMove ⟨1, 1⟩, InputEvent.mouseMove ⟨2, 2⟩,
       InputEvent.mouseMove ⟨3, 3⟩]) ∧
    (alterGlobalSettings (fun _ => zeroRect)
      (processEvents witnessExt initialState
        [InputEvent.mouseMove ⟨1, 1⟩, InputEvent.mouseMove ⟨2, 2⟩,
         InputEvent.mouseMove ⟨3, 3⟩])
      { emptyProps with positionHistorySize := some 2 }).trajectoryPositions.positions =
      [⟨2, 2⟩, ⟨3, 3⟩] := by
  constructor
  · have h1 := C6_history_never_exceeds.1 witnessExt
      (processEvents witnessExt initialState
        [InputEvent.mouseMove ⟨1, 1⟩, InputEvent.mouseMove ⟨2, 2⟩])
      (InputEvent.mouseMove ⟨3, 3⟩) (by decide)
    exact h1
  · have h3 := C6_history_never_exceeds.2.2 (fun _ => zeroRect)
      (processEvents witnessExt initialState
        [InputEvent.mouseMove ⟨1, 1⟩, InputEvent.mouseMove ⟨2, 2⟩,
         InputEvent.mouseMove ⟨3, 3⟩])
      { emptyProps with positionHistorySize := some 2 } 2 rfl (by decide) (by decide)
    rw [h3]
    decide

/-
  C7: tab target selection.  The inline collection loop of `handleFocusIn` is
  the spec's tab window filtered by registry membership, the window inherits
  distinctness from the tabbable cache, and firing a distinct list of
  registered elements appends exactly that list to the fired log.
-/

/-- Fusing a membership guard into a `filterMap` (the shape of the collection
loop of `handleFocusIn`, source lines 599-609): guarding each produced value by
a predicate is filtering the unguarded result. -/
theorem filterMap_guard (js : List Int) (g : Int → Option Nat) (p : Nat → Bool) :
    js.filterMap (fun j => match g j with
      | none => none
      | some el => if p el then some el else none) =
    (js.filterMap g).filter p := by
  induction js with
  | nil => rfl
  | cons j rest ih =>
    cases hg : g j with
    | none => simp [List.filterMap_cons, hg, ih]
    | some el =>
      by_cases hp : p el
      · simp [List.filterMap_cons, hg, hp, ih]
      · simp [List.filterMap_cons, hg, hp, ih]

/-- A cache without duplicates yields a tab window without duplicates: the
window reads the cache at pairwise distinct indices. -/
theorem tabWindow_nodup (cache : List Nat) (i : Int) (rev : Bool) (n : Int)
    (h : cache.Nodup) : (tabWindow cache i rev n).Nodup := by
  unfold tabWindow
  rw [bind_pure_comp]
  refine List.Nodup.filterMap ?_ ((List.nodup_range (n + 1).toNat).map ?_)
  · intro a a' b hb hb'
    rw [Option.mem_def] at hb hb'
    unfold listGetInt at hb hb'
    by_cases ha : (if rev then i - a else i + a) < 0
    · rw [if_pos ha] at hb; cases hb
    · by_cases ha' : (if rev then i - a' else i + a') < 0
      · rw [if_pos ha'] at hb'; cases hb'
      · rw [if_neg ha] at hb
        rw [if_neg ha'] at hb'
        have hlt : (if rev then i - a else i + a).toNat < cache.length := by
          by_contra hge
          push_neg at hge
          rw [List.get?_eq_none.mpr hge] at hb
          cases hb
        have heq : (if rev then i - a else i + a).toNat =
            (if rev then i - a' else i + a').toNat := by
          apply List.getElem?_inj hlt h
          rw [← List.get?_eq_getElem?, ← List.get?_eq_getElem?, hb, hb']
        cases rev
        · simp only [Bool.false_eq_true, if_false] at ha ha' heq
          omega
        · simp only [if_pos] at ha ha' heq
          omega
  · intro a b hab
    exact_mod_cast hab

/-- Firing a duplicate-free list of registered elements by registry re-fetch
appends exactly that list to the fired log, preserving well-formedness. -/
theorem foldl_fire_exact (ht : HitType) (L : List Nat) :
    ∀ t : ManagerState, WF t → L.Nodup →
    (∀ el ∈ L, mapHas t.elements el = true) →
    WF (L.foldl (fun acc el => callCallback acc (mapGet acc.elements el) ht) t) ∧
    (L.foldl (fun acc el => callCallback acc (mapGet acc.elements el) ht) t).firedLog =
      t.firedLog ++ L := by
  induction L with
  | nil => intro t hwf _ _; exact ⟨hwf, by simp⟩
  | cons el rest ih =>
    intro t hwf hnd hreg
    have hhas : mapHas t.elements el = true := hreg el (List.mem_cons_self _ _)
    cases hg : mapGet t.elements el with
    | none => rw [mapHas, hg] at hhas; cases hhas
    | some d =>
      have hel : d.element = el := MapWF.element_of_get hwf hg
      have hpres : mapHas t.elements d.element = true := by rw [hel]; exact hhas
      obtain ⟨hw1, hlog1, hgone, hother, -, -⟩ := callCallback_some t d ht hwf hpres
      have hreg1 : ∀ e ∈ rest, mapHas (callCallback t (some d) ht).elements e = true := by
        intro e he
        have hne : e ≠ el := by
          intro hcontra
          subst hcontra
          exact (List.nodup_cons.mp hnd).1 he
        rw [mapHas, hother e (by rw [hel]; exact hne)]
        exact hreg e (List.mem_cons_of_mem _ he)
      have hih := ih (callCallback t (some d) ht) hw1 (List.nodup_cons.mp hnd).2 hreg1
      rw [List.foldl_cons, hg]
      refine ⟨hih.1, ?_⟩
      rw [hih.2, hlog1, hel]
      simp

/-- C7: on a tab focus change following a Tab keydown, with tab prediction
enabled, a warm duplicate-free tabbable cache and resolved focused index `i`,
exactly the registered members of the up-to-(tabOffset+1)-entry cache window
extending from `i` in the traversal direction fire, in window order: the fired
log grows by exactly the window filtered by registry membership.  In
particular, a considered but unregistered element (such as the focused element
itself) never fires. -/
theorem C7_tab_target_selection (ext : Externals) (s : ManagerState) (target : Nat)
    (isReversed : Bool)
    (hwf : WF s)
    (hkd : s.lastKeyDown = some isReversed)
    (htab : s.globalSettings.enableTabPrediction = true)
    (hcache : s.tabbableElementsCache.isEmpty = false)
    (hnodup : s.tabbableElementsCache.Nodup) :
    (handleFocusIn ext s target).firedLog =
      s.firedLog ++
        (tabWindow s.tabbableElementsCache
            (ext.getFocusedElementIndex isReversed s.lastFocusedIndex
              s.tabbableElementsCache target)
            isReversed s.globalSettings.tabOffset).filter
          (fun el => mapHas s.elements el) := by
  unfold handleFocusIn
  rw [hkd]
  simp only [htab, not_true_eq_false, if_false, hcache, Bool.false_eq_true]
  dsimp only
  rw [filterMap_guard]
  have hwin : ((tabWindow s.tabbableElementsCache
      (ext.getFocusedElementIndex isReversed s.lastFocusedIndex
        s.tabbableElementsCache target)
      isReversed s.globalSettings.tabOffset).filter
      (fun el => mapHas s.elements el)).Nodup :=
    List.Nodup.filter _ (tabWindow_nodup _ _ _ _ hnodup)
  have hregs : ∀ el ∈ (tabWindow s.tabbableElementsCache
      (ext.getFocusedElementIndex isReversed s.lastFocusedIndex
        s.tabbableElementsCache target)
      isReversed s.globalSettings.tabOffset).filter
      (fun el => mapHas s.elements el),
      mapHas s.elements el = true := by
    intro el hmem
    exact (List.mem_filter.mp hmem).2
  refine (foldl_fire_exact _ _ _ ?_ ?_ ?_).2
  · exact hwf
  · exact hwin
  · exact hregs

/-- The spec's concrete scenario for C7: tabOffset 2, forward traversal, focus
resolved at cache index 5, registered elements only at indices 6 and 7 (values
16 and 17) — exactly 16 and 17 fire, the focused element 15 does not. -/
theorem C7_tab_target_selection_witness :
    (handleFocusIn tabScenarioExt tabScenarioState 15).firedLog = [16, 17] := by
  have h := C7_tab_target_selection tabScenarioExt tabScenarioState 15 false
    (by decide) rfl rfl rfl (by decide)
  rw [h]
  decide

/-
  C8: per-batch scroll-direction / scroll-endpoint computation.  The two
  compute sites of `handleScrollPrefetch` run only on an empty batch cache and
  fill it; every state transformer reachable from a batch entry preserves the
  caches and counters otherwise; `handlePositionChange` clears both caches
  after the batch.
-/

/-- Unregistering touches neither scroll cache nor either compute counter. -/
theorem unregister_scroll (s : ManagerState) (e : Nat) (r : UnregisterReason) :
    (unregister s e r).scrollDirection = s.scrollDirection ∧
    (unregister s e r).predictedScrollPoint = s.predictedScrollPoint ∧
    (unregister s e r).scrollDirComputeCount = s.scrollDirComputeCount ∧
    (unregister s e r).scrollPointComputeCount = s.scrollPointComputeCount := by
  unfold unregister
  dsimp only
  split
  · exact ⟨rfl, rfl, rfl, rfl⟩
  · split
    · exact ⟨rfl, rfl, rfl, rfl⟩
    · exact ⟨rfl, rfl, rfl, rfl⟩

/-- Firing a callback touches neither scroll cache nor either compute counter. -/
theorem callCallback_scroll (s : ManagerState) (data : Option ElementData) (ht : HitType) :
    (callCallback s data ht).scrollDirection = s.scrollDirection ∧
    (callCallback s data ht).predictedScrollPoint = s.predictedScrollPoint ∧
    (callCallback s data ht).scrollDirComputeCount = s.scrollDirComputeCount ∧
    (callCallback s data ht).scrollPointComputeCount = s.scrollPointComputeCount := by
  cases data with
  | none => exact ⟨rfl, rfl, rfl, rfl⟩
  | some d =>
    unfold callCallback
    dsimp only
    exact unregister_scroll _ _ _

/-- The possible-fire-then-emit tail of the scroll-prediction branch touches
neither scroll cache nor either compute counter. -/
theorem prefetch_tail_scroll (s2 : ManagerState) (d : ElementData) (axis : ScrollAxis)
    (c : Bool) :
    (emitState (if c then callCallback s2 (some d) (.scroll axis) else s2)
      .scrollTrajectoryUpdate).scrollDirection = s2.scrollDirection ∧
    (emitState (if c then callCallback s2 (some d) (.scroll axis) else s2)
      .scrollTrajectoryUpdate).predictedScrollPoint = s2.predictedScrollPoint ∧
    (emitState (if c then callCallback s2 (some d) (.scroll axis) else s2)
      .scrollTrajectoryUpdate).scrollDirComputeCount = s2.scrollDirComputeCount ∧
    (emitState (if c then callCallback s2 (some d) (.scroll axis) else s2)
      .scrollTrajectoryUpdate).scrollPointComputeCount = s2.scrollPointComputeCount := by
  cases c with
  | false => exact ⟨rfl, rfl, rfl, rfl⟩
  | true =>
    have h := callCallback_scroll s2 (some d) (.scroll axis)
    exact ⟨h.1, h.2.1, h.2.2.1, h.2.2.2⟩

/-- One scroll-prefetch pass either reuses each batch cache (leaving its value
and its compute counter unchanged) or computes it exactly once: only on an
empty cache, filling it and bumping its counter by one. -/
theorem scrollPrefetch_once (ext : Externals) (s : ManagerState) (d : ElementData)
    (newRect : Rect) :
    (((handleScrollPrefetch ext s d newRect).scrollDirection = s.scrollDirection ∧
      (handleScrollPrefetch ext s d newRect).scrollDirComputeCount =
        s.scrollDirComputeCount) ∨
     (s.scrollDirection = none ∧
      (handleScrollPrefetch ext s d newRect).scrollDirection ≠ none ∧
      (handleScrollPrefetch ext s d newRect).scrollDirComputeCount =
        s.scrollDirComputeCount + 1)) ∧
    (((handleScrollPrefetch ext s d newRect).predictedScrollPoint = s.predictedScrollPoint ∧
      (handleScrollPrefetch ext s d newRect).scrollPointComputeCount =
        s.scrollPointComputeCount) ∨
     (s.predictedScrollPoint = none ∧
      (handleScrollPrefetch ext s d newRect).predictedScrollPoint ≠ none ∧
      (handleScrollPrefetch ext s d newRect).scrollPointComputeCount =
        s.scrollPointComputeCount + 1)) := by
  unfold handleScrollPrefetch
  by_cases hsp : s.globalSettings.enableScrollPrediction
  · simp only [hsp, if_true]
    cases ho : d.elementBounds.originalRect with
    | none => exact ⟨Or.inl ⟨rfl, rfl⟩, Or.inl ⟨rfl, rfl⟩⟩
    | some oldRect =>
      dsimp only
      cases hsd : s.scrollDirection with
      | some dv =>
        dsimp only
        cases dv with
        | none => exact ⟨Or.inl ⟨hsd, rfl⟩, Or.inl ⟨rfl, rfl⟩⟩
        | some axis =>
          dsimp only
          cases hpp : s.predictedScrollPoint with
          | some pt =>
            dsimp only
            exact ⟨Or.inl ⟨(prefetch_tail_scroll _ d axis _).1.trans hsd,
                (prefetch_tail_scroll _ d axis _).2.2.1⟩,
              Or.inl ⟨(prefetch_tail_scroll _ d axis _).2.1.trans hpp,
                (prefetch_tail_scroll _ d axis _).2.2.2⟩⟩
          | none =>
            dsimp only
            refine ⟨Or.inl ⟨(prefetch_tail_scroll _ d axis _).1.trans hsd,
                (prefetch_tail_scroll _ d axis _).2.2.1⟩,
              Or.inr ⟨rfl, ?_, (prefetch_tail_scroll _ d axis _).2.2.2⟩⟩
            intro hn
            exact Option.noConfusion ((prefetch_tail_scroll _ d axis _).2.1.symm.trans hn)
      | none =>
        dsimp only
        cases hgd : ext.getScrollDirection oldRect newRect with
        | none =>
          refine ⟨Or.inr ⟨rfl, ?_, rfl⟩, Or.inl ⟨rfl, rfl⟩⟩
          intro hn
          exact Option.noConfusion hn
        | some axis =>
          dsimp only
          cases hpp : s.predictedScrollPoint with
          | some pt =>
            dsimp only
            refine ⟨Or.inr ⟨rfl, ?_, (prefetch_tail_scroll _ d axis _).2.2.1⟩,
              Or.inl ⟨(prefetch_tail_scroll _ d axis _).2.1,
                (prefetch_tail_scroll _ d axis _).2.2.2⟩⟩
            intro hn
            exact Option.noConfusion ((prefetch_tail_scroll _ d axis _).1.symm.trans hn)
          | none =>
            dsimp only
            refine ⟨Or.inr ⟨rfl, ?_, (prefetch_tail_scroll _ d axis _).2.2.1⟩,
              Or.inr ⟨rfl, ?_, (prefetch_tail_scroll _ d axis _).2.2.2⟩⟩
            · intro hn
              exact Option.noConfusion ((prefetch_tail_scroll _ d axis _).1.symm.trans hn)
            · intro hn
              exact Option.noConfusion ((prefetch_tail_scroll _ d axis _).2.1.symm.trans hn)
  · simp only [hsp, if_false]
    by_cases hit : ext.isPointInRectangle s.trajectoryPositions.currentPoint
        d.elementBounds.expandedRect
    · simp only [hit, if_true]
      have h := callCallback_scroll s (some d) (.mouse .hover)
      exact ⟨Or.inl ⟨h.1, h.2.2.1⟩, Or.inl ⟨h.2.1, h.2.2.2⟩⟩
    · simp only [hit, if_false]
      exact ⟨Or.inl ⟨rfl, rfl⟩, Or.inl ⟨rfl, rfl⟩⟩

/-- One batch entry either reuses each batch cache or computes it exactly once
on an empty cache. -/
theorem posVisit_scroll (ext : Externals) (s : ManagerState) (entry : PosEntry) :
    (((posVisit ext s entry).scrollDirection = s.scrollDirection ∧
      (posVisit ext s entry).scrollDirComputeCount = s.scrollDirComputeCount) ∨
     (s.scrollDirection = none ∧ (posVisit ext s entry).scrollDirection ≠ none ∧
      (posVisit ext s entry).scrollDirComputeCount = s.scrollDirComputeCount + 1)) ∧
    (((posVisit ext s entry).predictedScrollPoint = s.predictedScrollPoint ∧
      (posVisit ext s entry).scrollPointComputeCount = s.scrollPointComputeCount) ∨
     (s.predictedScrollPoint = none ∧ (posVisit ext s entry).predictedScrollPoint ≠ none ∧
      (posVisit ext s entry).scrollPointComputeCount = s.scrollPointComputeCount + 1)) := by
  unfold posVisit
  cases hg : mapGet s.elements entry.target with
  | none => exact ⟨Or.inl ⟨rfl, rfl⟩, Or.inl ⟨rfl, rfl⟩⟩
  | some d =>
    simp only []
    cases hni : entry.isIntersecting with
    | true =>
      cases hvw : d.isIntersectingWithViewport with
      | true => exact scrollPrefetch_once _ _ _ _
      | false => exact scrollPrefetch_once _ _ _ _
    | false =>
      cases hvw : d.isIntersectingWithViewport with
      | true => exact ⟨Or.inl ⟨rfl, rfl⟩, Or.inl ⟨rfl, rfl⟩⟩
      | false => exact ⟨Or.inl ⟨rfl, rfl⟩, Or.inl ⟨rfl, rfl⟩⟩

/-- Across a whole batch each cache is filled at most once: starting from the
given baseline counters, a cache is either still empty with its counter at the
baseline, or filled with its counter exactly one above the baseline. -/
theorem posVisit_foldl_once (ext : Externals) (entries : List PosEntry) (c0 p0 : Nat) :
    ∀ s : ManagerState,
    ((s.scrollDirection = none ∧ s.scrollDirComputeCount = c0) ∨
     (s.scrollDirection ≠ none ∧ s.scrollDirComputeCount = c0 + 1)) →
    ((s.predictedScrollPoint = none ∧ s.scrollPointComputeCount = p0) ∨
     (s.predictedScrollPoint ≠ none ∧ s.scrollPointComputeCount = p0 + 1)) →
    (((entries.foldl (posVisit ext) s).scrollDirection = none ∧
      (entries.foldl (posVisit ext) s).scrollDirComputeCount = c0) ∨
     ((entries.foldl (posVisit ext) s).scrollDirection ≠ none ∧
      (entries.foldl (posVisit ext) s).scrollDirComputeCount = c0 + 1)) ∧
    (((entries.foldl (posVisit ext) s).predictedScrollPoint = none ∧
      (entries.foldl (posVisit ext) s).scrollPointComputeCount = p0) ∨
     ((entries.foldl (posVisit ext) s).predictedScrollPoint ≠ none ∧
      (entries.foldl (posVisit ext) s).scrollPointComputeCount = p0 + 1)) := by
  induction entries with
  | nil => intro s h1 h2; exact ⟨h1, h2⟩
  | cons en rest ih =>
    intro s h1 h2
    have hstep := posVisit_scroll ext s en
    rw [List.foldl_cons]
    refine ih (posVisit ext s en) ?_ ?_
    · rcases hstep.1 with ⟨he, hc⟩ | ⟨hnone, hne, hc⟩
      · rcases h1 with ⟨hd, hcnt⟩ | ⟨hd, hcnt⟩
        · exact Or.inl ⟨he.trans hd, hc.trans hcnt⟩
        · exact Or.inr ⟨by rw [he]; exact hd, hc.trans hcnt⟩
      · rcases h1 with ⟨hd, hcnt⟩ | ⟨hd, hcnt⟩
        · exact Or.inr ⟨hne, by rw [hc, hcnt]⟩
        · exact absurd hnone hd
    · rcases hstep.2 with ⟨he, hc⟩ | ⟨hnone, hne, hc⟩
      · rcases h2 with ⟨hd, hcnt⟩ | ⟨hd, hcnt⟩
        · exact Or.inl ⟨he.trans hd, hc.trans hcnt⟩
        · exact Or.inr ⟨by rw [he]; exact hd, hc.trans hcnt⟩
      · rcases h2 with ⟨hd, hcnt⟩ | ⟨hd, hcnt⟩
        · exact Or.inr ⟨hne, by rw [hc, hcnt]⟩
        · exact absurd hnone hd

/-- C8: within one viewport-position-update batch starting with empty batch
caches, the scroll direction and the predicted scroll endpoint are each
computed at most once — each instrumentation counter ends at its baseline or
exactly one above it, however many batch entries reuse the cached value — and
both caches are reset once the batch is fully processed, so the next batch
recomputes them. -/
theorem C8_batch_compute_once (ext : Externals) (s : ManagerState) (entries : List PosEntry)
    (hd : s.scrollDirection = none) (hp : s.predictedScrollPoint = none) :
    ((handlePositionChange ext s entries).scrollDirComputeCount = s.scrollDirComputeCount ∨
     (handlePositionChange ext s entries).scrollDirComputeCount =
       s.scrollDirComputeCount + 1) ∧
    ((handlePositionChange ext s entries).scrollPointComputeCount =
       s.scrollPointComputeCount ∨
     (handlePositionChange ext s entries).scrollPointComputeCount =
       s.scrollPointComputeCount + 1) ∧
    (handlePositionChange ext s entries).scrollDirection = none ∧
    (handlePositionChange ext s entries).predictedScrollPoint = none := by
  have h := posVisit_foldl_once ext entries s.scrollDirComputeCount s.scrollPointComputeCount s
    (Or.inl ⟨hd, rfl⟩) (Or.inl ⟨hp, rfl⟩)
  unfold handlePositionChange
  dsimp only
  refine ⟨?_, ?_, rfl, rfl⟩
  · rcases h.1 with ⟨_, hc⟩ | ⟨_, hc⟩
    · exact Or.inl hc
    · exact Or.inr hc
  · rcases h.2 with ⟨_, hc⟩ | ⟨_, hc⟩
    · exact Or.inl hc
    · exact Or.inr hc

/-- A concrete batch through `handlePositionChange` from the construction
state: the counter bounds hold and both batch caches end empty. -/
theorem C8_batch_compute_once_witness :
    (handlePositionChange witnessExt initialState
      [⟨5, zeroRect, true⟩]).scrollDirection = none ∧
    (handlePositionChange witnessExt initialState
      [⟨5, zeroRect, true⟩]).predictedScrollPoint = none ∧
    (handlePositionChange witnessExt initialState
      [⟨5, zeroRect, true⟩]).scrollDirComputeCount = 0 := by
  have h := C8_batch_compute_once witnessExt initialState [⟨5, zeroRect, true⟩] rfl rfl
  refine ⟨h.2.2.1, h.2.2.2, ?_⟩
  rcases h.1 with hc | hc
  · exact hc
  · cases hc

/-
  C2: equality-gated settings writes and idempotence of `alterGlobalSettings`.
  The gate compares the raw incoming value with the stored value before
  clamping, so a supplied value equal to the stored one is a complete no-op,
  while an out-of-range value differs from its own clamped stored result and
  re-fires `managerSettingsChanged` on every re-application.
-/

/-- A numeric update whose supplied value equals the stored value reports no
change and returns the settings untouched. -/
theorem updNum_noop (gs : ForesightManagerSettings) (nv : Option Int)
    (k : NumericSettingKeys) (mn mx : Int)
    (h : ∀ v, nv = some v → v = getNumeric gs k) :
    updateNumericSettings gs nv k mn mx = (false, gs) := by
  cases nv with
  | none => rfl
  | some v =>
    have hv : v = getNumeric gs k := h v rfl
    unfold updateNumericSettings shouldUpdateSetting
    simp [hv]

theorem updNum_noop_snd (gs : ForesightManagerSettings) (nv : Option Int)
    (k : NumericSettingKeys) (mn mx : Int)
    (h : ∀ v, nv = some v → v = getNumeric gs k) :
    (updateNumericSettings gs nv k mn mx).2 = gs := by
  rw [updNum_noop gs nv k mn mx h]

theorem updNum_noop_fst (gs : ForesightManagerSettings) (nv : Option Int)
    (k : NumericSettingKeys) (mn mx : Int)
    (h : ∀ v, nv = some v → v = getNumeric gs k) :
    (updateNumericSettings gs nv k mn mx).1 = false := by
  rw [updNum_noop gs nv k mn mx h]

/-- A boolean update whose supplied value equals the stored value reports no
change and returns the settings untouched. -/
theorem updBool_noop (gs : ForesightManagerSettings) (nv : Option Bool)
    (k : BooleanSettingKeys)
    (h : ∀ v, nv = some v → v = getBoolean gs k) :
    updateBooleanSetting gs nv k = (false, gs) := by
  cases nv with
  | none => rfl
  | some v =>
    have hv : v = getBoolean gs k := h v rfl
    unfold updateBooleanSetting shouldUpdateSetting
    simp [hv]

theorem updBool_noop_snd (gs : ForesightManagerSettings) (nv : Option Bool)
    (k : BooleanSettingKeys)
    (h : ∀ v, nv = some v → v = getBoolean gs k) :
    (updateBooleanSetting gs nv k).2 = gs := by
  rw [updBool_noop gs nv k h]

theorem updBool_noop_fst (gs : ForesightManagerSettings) (nv : Option Bool)
    (k : BooleanSettingKeys)
    (h : ∀ v, nv = some v → v = getBoolean gs k) :
    (updateBooleanSetting gs nv k).1 = false := by
  rw [updBool_noop gs nv k h]

/-- A settings update every supplied value of which equals the stored value is
a complete no-op: no recompute, no state change, no notification. -/
theorem alter_noop (dom : Nat → Rect) (s : ManagerState) (props : UpdateProps)
    (h : AppliedAt s props) : alterGlobalSettings dom s props = s := by
  obtain ⟨h1, h2, h3, h4, h5, h6, h7, h8, h9⟩ := h
  unfold alterGlobalSettings
  dsimp only
  rw [updNum_noop_snd s.globalSettings props.positionHistorySize .positionHistorySize
      MIN_POSITION_HISTORY_SIZE MAX_POSITION_HISTORY_SIZE h1,
    updNum_noop_fst s.globalSettings props.positionHistorySize .positionHistorySize
      MIN_POSITION_HISTORY_SIZE MAX_POSITION_HISTORY_SIZE h1,
    updNum_noop_snd s.globalSettings props.trajectoryPredictionTime .trajectoryPredictionTime
      MIN_TRAJECTORY_PREDICTION_TIME MAX_TRAJECTORY_PREDICTION_TIME h2,
    updNum_noop_fst s.globalSettings props.trajectoryPredictionTime .trajectoryPredictionTime
      MIN_TRAJECTORY_PREDICTION_TIME MAX_TRAJECTORY_PREDICTION_TIME h2,
    updNum_noop_snd s.globalSettings props.scrollMargin .scrollMargin
      MIN_SCROLL_MARGIN MAX_SCROLL_MARGIN h3,
    updNum_noop_fst s.globalSettings props.scrollMargin .scrollMargin
      MIN_SCROLL_MARGIN MAX_SCROLL_MARGIN h3,
    updNum_noop_snd s.globalSettings props.tabOffset .tabOffset
      MIN_TAB_OFFSET MAX_TAB_OFFSET h4,
    updNum_noop_fst s.globalSettings props.tabOffset .tabOffset
      MIN_TAB_OFFSET MAX_TAB_OFFSET h4,
    updBool_noop_snd s.globalSettings props.enableMousePrediction .enableMousePrediction h5,
    updBool_noop_fst s.globalSettings props.enableMousePrediction .enableMousePrediction h5,
    updBool_noop_snd s.globalSettings props.enableScrollPrediction .enableScrollPrediction h6,
    updBool_noop_fst s.globalSettings props.enableScrollPrediction .enableScrollPrediction h6,
    updBool_noop_snd s.globalSettings props.enableTabPrediction .enableTabPrediction h7,
    updBool_noop_fst s.globalSettings props.enableTabPrediction .enableTabPrediction h7]
  cases hcb : props.onAnyCallbackFired with
  | none =>
    dsimp only
    cases hhs : props.defaultHitSlop with
    | none => simp
    | some hs =>
      dsimp only
      rw [h9 hs hhs]
      simp [areRectsEqual]
  | some hook =>
    dsimp only
    rw [h8 hook hcb]
    cases hhs : props.defaultHitSlop with
    | none => simp
    | some hs =>
      dsimp only
      rw [h9 hs hhs]
      simp [areRectsEqual]

/-- Reading a numeric key is unaffected by an update to a different numeric key. -/
theorem getNumeric_updNum_ne (gs : ForesightManagerSettings) (nv : Option Int)
    (kw : NumericSettingKeys) (mn mx : Int) (k : NumericSettingKeys) (hne : k ≠ kw) :
    getNumeric (updateNumericSettings gs nv kw mn mx).2 k = getNumeric gs k := by
  rcases updNum_main_cases gs nv kw mn mx with h | ⟨v, -, -, h⟩ <;> rw [h]
  · exact getNumeric_setNumeric_ne gs kw k _ hne

/-- Reading a numeric key is unaffected by any boolean update. -/
theorem getNumeric_updBool (gs : ForesightManagerSettings) (nv : Option Bool)
    (b : BooleanSettingKeys) (k : NumericSettingKeys) :
    getNumeric (updateBooleanSetting gs nv b).2 k = getNumeric gs k := by
  rcases updBool_main_cases gs nv b with h | ⟨v, h⟩ <;> rw [h]
  · cases b <;> cases k <;> rfl

/-- The numeric update with an in-range supplied value (a fixed point of its
clamp) always stores exactly that value, whether or not the gate fired. -/
theorem getNumeric_updNum_self (gs : ForesightManagerSettings) (v : Int)
    (k : NumericSettingKeys) (mn mx : Int) (hfix : clampNumber v mn mx = v) :
    getNumeric (updateNumericSettings gs (some v) k mn mx).2 k = v := by
  by_cases hv : v = getNumeric gs k
  · have h : updateNumericSettings gs (some v) k mn mx = (false, gs) := by
      unfold updateNumericSettings shouldUpdateSetting
      simp [hv]
    rw [h]
    exact hv.symm
  · have h : updateNumericSettings gs (some v) k mn mx =
        (true, setNumeric gs k (clampNumber v mn mx)) := by
      unfold updateNumericSettings shouldUpdateSetting
      simp [hv]
    rw [h]
    dsimp only
    rw [getNumeric_setNumeric_self, hfix]

/-- Reading a boolean key is unaffected by any numeric update. -/
theorem getBoolean_updNum (gs : ForesightManagerSettings) (nv : Option Int)
    (kw : NumericSettingKeys) (mn mx : Int) (b : BooleanSettingKeys) :
    getBoolean (updateNumericSettings gs nv kw mn mx).2 b = getBoolean gs b := by
  rcases updNum_main_cases gs nv kw mn mx with h | ⟨v, -, -, h⟩ <;> rw [h]
  · cases kw <;> cases b <;> rfl

/-- Reading a boolean key is unaffected by an update to a different boolean key. -/
theorem getBoolean_updBool_ne (gs : ForesightManagerSettings) (nv : Option Bool)
    (bw : BooleanSettingKeys) (b : BooleanSettingKeys) (hne : b ≠ bw) :
    getBoolean (updateBooleanSetting gs nv bw).2 b = getBoolean gs b := by
  rcases updBool_main_cases gs nv bw with h | ⟨v, h⟩ <;> rw [h]
  · cases bw <;> cases b <;> first
      | rfl
      | exact absurd rfl hne

/-- The boolean update with a supplied value always stores exactly that value. -/
theorem getBoolean_updBool_self (gs : ForesightManagerSettings) (v : Bool)
    (b : BooleanSettingKeys) :
    getBoolean (updateBooleanSetting gs (some v) b).2 b = v := by
  by_cases hv : v = getBoolean gs b
  · have h : updateBooleanSetting gs (some v) b = (false, gs) := by
      unfold updateBooleanSetting shouldUpdateSetting
      simp [hv]
    rw [h]
    exact hv.symm
  · have h : updateBooleanSetting gs (some v) b = (true, setBoolean gs b v) := by
      unfold updateBooleanSetting shouldUpdateSetting
      simp [hv]
    rw [h]
    cases b <;> rfl

/-- The final value of every numeric key of `alterGlobalSettings` is the one
its own update stage produced: the hook overwrite and the hit-slop stage touch
no numeric field. -/
theorem alter_numeric_final (dom : Nat → Rect) (s : ManagerState) (props : UpdateProps)
    (k : NumericSettingKeys) :
    getNumeric (alterGlobalSettings dom s props).globalSettings k =
      getNumeric (settingsChain s.globalSettings props) k := by
  unfold alterGlobalSettings settingsChain
  dsimp only
  cases props.onAnyCallbackFired with
  | none =>
    cases props.defaultHitSlop with
    | none => rfl
    | some hs =>
      dsimp only
      split
      · cases k <;> rfl
      · rfl
  | some hook =>
    cases props.defaultHitSlop with
    | none => cases k <;> rfl
    | some hs =>
      dsimp only
      split
      · cases k <;> rfl
      · cases k <;> rfl

/-- The final value of every boolean key of `alterGlobalSettings` is the one
its own update stage produced. -/
theorem alter_boolean_final (dom : Nat → Rect) (s : ManagerState) (props : UpdateProps)
    (b : BooleanSettingKeys) :
    getBoolean (alterGlobalSettings dom s props).globalSettings b =
      getBoolean (settingsChain s.globalSettings props) b := by
  unfold alterGlobalSettings settingsChain
  dsimp only
  cases props.onAnyCallbackFired with
  | none =>
    cases props.defaultHitSlop with
    | none => rfl
    | some hs =>
      dsimp only
      split
      · cases b <;> rfl
      · rfl
  | some hook =>
    cases props.defaultHitSlop with
    | none => cases b <;> rfl
    | some hs =>
      dsimp only
      split
      · cases b <;> rfl
      · cases b <;> rfl

/-- The final `onAnyCallbackFired` hook of `alterGlobalSettings`: a supplied
hook is stored verbatim, otherwise it is untouched by every stage. -/
theorem alter_hook_final (dom : Nat → Rect) (s : ManagerState) (props : UpdateProps) :
    (alterGlobalSettings dom s props).globalSettings.onAnyCallbackFired =
      (match props.onAnyCallbackFired with
       | some h => h
       | none => (settingsChain s.globalSettings props).onAnyCallbackFired) := by
  unfold alterGlobalSettings settingsChain
  dsimp only
  cases props.onAnyCallbackFired with
  | none =>
    cases props.defaultHitSlop with
    | none => rfl
    | some hs =>
      dsimp only
      split
      · rfl
      · rfl
  | some hook =>
    cases props.defaultHitSlop with
    | none => rfl
    | some hs =>
      dsimp only
      split
      · rfl
      · rfl

/-- The final `defaultHitSlop` of `alterGlobalSettings`: a supplied hit slop is
stored normalised (also when the gate skipped the write because the stored
value was already equal), otherwise it is untouched by every stage. -/
theorem alter_hitslop_final (dom : Nat → Rect) (s : ManagerState) (props : UpdateProps) :
    (alterGlobalSettings dom s props).globalSettings.defaultHitSlop =
      (match props.defaultHitSlop with
       | some h => normalizeHitSlop h
       | none => (settingsChain s.globalSettings props).defaultHitSlop) := by
  unfold alterGlobalSettings settingsChain
  dsimp only
  cases props.onAnyCallbackFired with
  | none =>
    cases props.defaultHitSlop with
    | none => rfl
    | some hs =>
      dsimp only
      split
      · rfl
      · case isFalse hgate =>
          have hb := of_decide_eq_true (not_not.mp hgate)
          exact hb
  | some hook =>
    cases props.defaultHitSlop with
    | none => rfl
    | some hs =>
      dsimp only
      split
      · rfl
      · case isFalse hgate =>
          have hb := of_decide_eq_true (not_not.mp hgate)
          exact hb

/-- The stage chain stores an in-range supplied `positionHistorySize` verbatim. -/
theorem chain_phs (gs : ForesightManagerSettings) (props : UpdateProps) (v : Int)
    (hv : props.positionHistorySize = some v)
    (hfix : clampNumber v MIN_POSITION_HISTORY_SIZE MAX_POSITION_HISTORY_SIZE = v) :
    getNumeric (settingsChain gs props) .positionHistorySize = v := by
  unfold settingsChain
  rw [getNumeric_updBool, getNumeric_updBool, getNumeric_updBool,
    getNumeric_updNum_ne, getNumeric_updNum_ne, getNumeric_updNum_ne, hv]
  · exact getNumeric_updNum_self _ _ _ _ _ hfix
  · decide
  · decide
  · decide

/-- The stage chain stores an in-range supplied `trajectoryPredictionTime`
verbatim. -/
theorem chain_tpt (gs : ForesightManagerSettings) (props : UpdateProps) (v : Int)
    (hv : props.trajectoryPredictionTime = some v)
    (hfix : clampNumber v MIN_TRAJECTORY_PREDICTION_TIME MAX_TRAJECTORY_PREDICTION_TIME = v) :
    getNumeric (settingsChain gs props) .trajectoryPredictionTime = v := by
  unfold settingsChain
  rw [getNumeric_updBool, getNumeric_updBool, getNumeric_updBool,
    getNumeric_updNum_ne, getNumeric_updNum_ne, hv]
  · exact getNumeric_updNum_self _ _ _ _ _ hfix
  · decide
  · decide

/-- The stage chain stores an in-range supplied `scrollMargin` verbatim. -/
theorem chain_scroll (gs : ForesightManagerSettings) (props : UpdateProps) (v : Int)
    (hv : props.scrollMargin = some v)
    (hfix : clampNumber v MIN_SCROLL_MARGIN MAX_SCROLL_MARGIN = v) :
    getNumeric (settingsChain gs props) .scrollMargin = v := by
  unfold settingsChain
  rw [getNumeric_updBool, getNumeric_updBool, getNumeric_updBool,
    getNumeric_updNum_ne, hv]
  · exact getNumeric_updNum_self _ _ _ _ _ hfix
  · decide

/-- The stage chain stores an in-range supplied `tabOffset` verbatim. -/
theorem chain_tab (gs : ForesightManagerSettings) (props : UpdateProps) (v : Int)
    (hv : props.tabOffset = some v)
    (hfix : clampNumber v MIN_TAB_OFFSET MAX_TAB_OFFSET = v) :
    getNumeric (settingsChain gs props) .tabOffset = v := by
  unfold settingsChain
  rw [getNumeric_updBool, getNumeric_updBool, getNumeric_updBool, hv]
  exact getNumeric_updNum_self _ _ _ _ _ hfix

/-- The stage chain stores a supplied `enableMousePrediction` verbatim. -/
theorem chain_emp (gs : ForesightManagerSettings) (props : UpdateProps) (v : Bool)
    (hv : props.enableMousePrediction = some v) :
    getBoolean (settingsChain gs props) .enableMousePrediction = v := by
  unfold settingsChain
  rw [getBoolean_updBool_ne, getBoolean_updBool_ne, hv]
  · exact getBoolean_updBool_self _ _ _
  · decide
  · decide

/-- The stage chain stores a supplied `enableScrollPrediction` verbatim. -/
theorem chain_esp (gs : ForesightManagerSettings) (props : UpdateProps) (v : Bool)
    (hv : props.enableScrollPrediction = some v) :
    getBoolean (settingsChain gs props) .enableScrollPrediction = v := by
  unfold settingsChain
  rw [getBoolean_updBool_ne, hv]
  · exact getBoolean_updBool_self _ _ _
  · decide

/-- The stage chain stores a supplied `enableTabPrediction` verbatim. -/
theorem chain_etp (gs : ForesightManagerSettings) (props : UpdateProps) (v : Bool)
    (hv : props.enableTabPrediction = some v) :
    getBoolean (settingsChain gs props) .enableTabPrediction = v := by
  unfold settingsChain
  rw [hv]
  exact getBoolean_updBool_self _ _ _

/-- After an `alterGlobalSettings` call whose supplied numeric values are all
in range, every supplied value is stored verbatim: the update is applied. -/
theorem alter_applied (dom : Nat → Rect) (s : ManagerState) (props : UpdateProps)
    (hin : InRangeProps props) : AppliedAt (alterGlobalSettings dom s props) props := by
  obtain ⟨hin1, hin2, hin3, hin4⟩ := hin
  refine ⟨?_, ?_, ?_, ?_, ?_, ?_, ?_, ?_, ?_⟩
  · intro v hv
    exact ((alter_numeric_final dom s props .positionHistorySize).trans
      (chain_phs s.globalSettings props v hv (hin1 v hv))).symm
  · intro v hv
    exact ((alter_numeric_final dom s props .trajectoryPredictionTime).trans
      (chain_tpt s.globalSettings props v hv (hin2 v hv))).symm
  · intro v hv
    exact ((alter_numeric_final dom s props .scrollMargin).trans
      (chain_scroll s.globalSettings props v hv (hin3 v hv))).symm
  · intro v hv
    exact ((alter_numeric_final dom s props .tabOffset).trans
      (chain_tab s.globalSettings props v hv (hin4 v hv))).symm
  · intro v hv
    exact ((alter_boolean_final dom s props .enableMousePrediction).trans
      (chain_emp s.globalSettings props v hv)).symm
  · intro v hv
    exact ((alter_boolean_final dom s props .enableScrollPrediction).trans
      (chain_esp s.globalSettings props v hv)).symm
  · intro v hv
    exact ((alter_boolean_final dom s props .enableTabPrediction).trans
      (chain_etp s.globalSettings props v hv)).symm
  · intro v hv
    have h := alter_hook_final dom s props
    rw [hv] at h
    exact h.symm
  · intro v hv
    have h := alter_hitslop_final dom s props
    rw [hv] at h
    exact h.symm

/-- C2 counterexample: applying the identical settings object twice is NOT
idempotent for an out-of-range value.  `{positionHistorySize: 50}` is clamped
to the stored 30, so the second, identical application finds 50 ≠ 30 at the
raw-value gate, "updates" the field to the same 30, and emits a second
`managerSettingsChanged` — the stored settings record is unchanged yet the
notification fires again. -/
theorem C2_counterexample :
    (alterGlobalSettings (fun _ => zeroRect) initialState
        { emptyProps with positionHistorySize := some 50 }).globalSettings.positionHistorySize
        = 30 ∧
    (alterGlobalSettings (fun _ => zeroRect)
        (alterGlobalSettings (fun _ => zeroRect) initialState
          { emptyProps with positionHistorySize := some 50 })
        { emptyProps with positionHistorySize := some 50 }).globalSettings =
      (alterGlobalSettings (fun _ => zeroRect) initialState
        { emptyProps with positionHistorySize := some 50 }).globalSettings ∧
    (alterGlobalSettings (fun _ => zeroRect) initialState
        { emptyProps with positionHistorySize := some 50 }).emitted.count
        .managerSettingsChanged = 1 ∧
    (alterGlobalSettings (fun _ => zeroRect)
        (alterGlobalSettings (fun _ => zeroRect) initialState
          { emptyProps with positionHistorySize := some 50 })
        { emptyProps with positionHistorySize := some 50 }).emitted.count
        .managerSettingsChanged = 2 := by
  decide

/-- C2 (amended): the equality gate compares the raw incoming value with the
stored value, so (1) an update every supplied value of which already equals
the stored value (hit slop after normalisation) is a complete no-op — no
recompute, no state change, no notification — for every possible incoming
value; (2) after an update whose supplied numeric values are in range (fixed
points of their clamps) every supplied value is stored verbatim; hence (3)
applying identical in-range settings twice produces no second state change and
no second `managerSettingsChanged`.  For out-of-range values idempotence fails
(see the counterexample): the raw value never equals its clamped stored
result, so every re-application re-fires the notification. -/
theorem C2_equality_gated_amended (dom : Nat → Rect) (s : ManagerState)
    (props : UpdateProps) :
    (AppliedAt s props → alterGlobalSettings dom s props = s) ∧
    (InRangeProps props → AppliedAt (alterGlobalSettings dom s props) props) ∧
    (InRangeProps props →
      alterGlobalSettings dom (alterGlobalSettings dom s props) props =
        alterGlobalSettings dom s props) :=
  ⟨alter_noop dom s props, alter_applied dom s props,
   fun hin => alter_noop dom _ props (alter_applied dom s props hin)⟩

/-- Concrete instantiation of the amended C2: the empty update is a no-op on
the construction state, and the in-range update `{positionHistorySize: 20}`
applied twice equals it applied once. -/
theorem C2_equality_gated_amended_witness :
    alterGlobalSettings (fun _ => zeroRect) initialState emptyProps = initialState ∧
    alterGlobalSettings (fun _ => zeroRect)
        (alterGlobalSettings (fun _ => zeroRect) initialState
          { emptyProps with positionHistorySize := some 20 })
        { emptyProps with positionHistorySize := some 20 } =
      alterGlobalSettings (fun _ => zeroRect) initialState
        { emptyProps with positionHistorySize := some 20 } := by
  constructor
  · refine (C2_equality_gated_amended (fun _ => zeroRect) initialState emptyProps).1 ?_
    refine ⟨?_, ?_, ?_, ?_, ?_, ?_, ?_, ?_, ?_⟩ <;>
      exact fun v hv => Option.noConfusion hv
  · refine (C2_equality_gated_amended (fun _ => zeroRect) initialState
      { emptyProps with positionHistorySize := some 20 }).2.2 ?_
    refine ⟨?_, ?_, ?_, ?_⟩
    · intro v hv
      injection hv with h
      subst h
      decide
    · intro v hv
      exact Option.noConfusion hv
    · intro v hv
      exact Option.noConfusion hv
    · intro v hv
      exact Option.noConfusion hv

end Foresight
